import Mathlib

/-!
Column appenders of the ClickHouse output plugin.

A shallow embedding of `plugin/output/clickhouse/column_custom.go` and the
properties of its six adapters (`ColDateTime`, `ColDateTime64`, `ColIPv4`,
`ColIPv6`, `ColEnum8`, `ColEnum16`).

A Go method `func (t *T) Append(node) error` mutates `*t` and returns an
error; here it is a function from the adapter state and the node to the pair
of the state after the call and the returned error (`none` for `nil`).

The collaborators that live outside the file are embedded as follows.

* `*insaneJSON.StrictNode` is `Option StrictNode`: `none` is the nil pointer
  and a `StrictNode` is given by what its four methods used here return.
* The `proto` column buffers are the sequence of the values they hold,
  oldest first: `ColDateTime` holds 32-bit unsigned second counts,
  `ColDateTime64` holds 64-bit counts of ticks of its precision and refuses
  an `Append` while no precision is set; the other buffers hold the values
  handed to their `Append`.
* `time.Unix`, `netip.ParseAddr`, `netip.Addr` follow the Go standard library;
  Go strings are read code point by code point, which takes the same branches
  as reading them byte by byte since every character tested is ASCII.
* `int64` arithmetic is arithmetic on `Int` wrapped into the signed 64-bit
  range by `wrapInt64`.
-/

namespace netip

/-- The error value `netip.parseAddrError`: the input, the message, and the
place in the input the message is about. -/
structure parseAddrError where
  input : String
  msg : String
  rest : String
deriving DecidableEq, Repr

/-- The Go type `uint128`: two 64-bit halves. -/
structure uint128 where
  hi : Nat
  lo : Nat
deriving DecidableEq, Repr

/-- The field `z` of an `Addr`: `z0` for the zero `Addr`, `z4` for an IPv4
address, `z6noz` for an IPv6 address without zone, and a zone name. -/
inductive zoneTag where
  | z0
  | z4
  | z6noz
  | zone (name : String)
deriving DecidableEq, Repr

/-- The Go type `netip.Addr`. -/
structure Addr where
  addr : uint128
  z : zoneTag
deriving DecidableEq, Repr

def beUint64 (b : List Nat) : Nat :=
  b.foldl (fun acc x => acc * 256 + x % 256) 0

def bePutUint64 (v : Nat) : List Nat :=
  [v / 72057594037927936 % 256, v / 281474976710656 % 256, v / 1099511627776 % 256,
   v / 4294967296 % 256, v / 16777216 % 256, v / 65536 % 256, v / 256 % 256, v % 256]

def bePutUint32 (v : Nat) : List Nat :=
  [v / 16777216 % 256, v / 65536 % 256, v / 256 % 256, v % 256]

def AddrFrom4 (a : List Nat) : Addr :=
  { addr := { hi := 0,
              lo := 0xffff00000000 ||| (a.getD 0 0 <<< 24) ||| (a.getD 1 0 <<< 16)
                      ||| (a.getD 2 0 <<< 8) ||| a.getD 3 0 },
    z := zoneTag.z4 }

def AddrFrom16 (a : List Nat) : Addr :=
  { addr := { hi := beUint64 (a.take 8), lo := beUint64 ((a.drop 8).take 8) },
    z := zoneTag.z6noz }

def IPv6Unspecified : Addr :=
  { addr := { hi := 0, lo := 0 }, z := zoneTag.z6noz }

def Addr.Is4 (ip : Addr) : Bool :=
  ip.z == zoneTag.z4

def Addr.Is6 (ip : Addr) : Bool :=
  ip.z != zoneTag.z0 && ip.z != zoneTag.z4

def Addr.Is4In6 (ip : Addr) : Bool :=
  ip.Is6 && ip.addr.hi == 0 && ip.addr.lo >>> 32 == 0xffff

def Addr.WithZone (ip : Addr) (zone : String) : Addr :=
  if !ip.Is6 then ip
  else if zone == "" then { ip with z := zoneTag.z6noz }
  else { ip with z := zoneTag.zone zone }

/-- The method `As4`; `none` is the panic on an address that is neither IPv4
nor IPv4-mapped. -/
def Addr.As4 (ip : Addr) : Option (List Nat) :=
  if ip.z == zoneTag.z4 || ip.Is4In6 then some (bePutUint32 (ip.addr.lo % 4294967296))
  else none

def Addr.As16 (ip : Addr) : List Nat :=
  bePutUint64 ip.addr.hi ++ bePutUint64 ip.addr.lo

/-- The loop of `parseIPv4Fields` from index `i` on, `cs` being `s[i:]`;
the result is `val` and `pos` at the end of the loop and the fields written. -/
def parseIPv4FieldsLoop (input : String) (s : List Char) :
    List Char → Nat → Nat → Nat → Nat → List Nat →
      Except parseAddrError (Nat × Nat × List Nat)
  | [], _, val, pos, _, fields => .ok (val, pos, fields)
  | c :: cs, i, val, pos, digLen, fields =>
    if '0' ≤ c ∧ c ≤ '9' then
      if digLen = 1 ∧ val = 0 then
        .error ⟨input, "IPv4 field has octet with leading zero", ""⟩
      else
        let val1 := val * 10 + c.toNat - 48
        if val1 > 255 then
          .error ⟨input, "IPv4 field has value >255", ""⟩
        else
          parseIPv4FieldsLoop input s cs (i + 1) val1 pos (digLen + 1) fields
    else if c = '.' then
      if i = 0 ∨ i = s.length - 1 ∨ s.getD (i - 1) ' ' = '.' then
        .error ⟨input, "IPv4 field must have at least one digit", String.mk (c :: cs)⟩
      else if pos = 3 then
        .error ⟨input, "IPv4 address too long", ""⟩
      else
        parseIPv4FieldsLoop input s cs (i + 1) 0 (pos + 1) 0 (fields.set pos (val % 256))
    else
      .error ⟨input, "unexpected character", String.mk (c :: cs)⟩

/-- Go's `parseIPv4Fields(in, off, end, fields)` with `s = in[off:end]`; the
four fields are returned instead of written through the slice. -/
def parseIPv4Fields (input : String) (s : List Char) : Except parseAddrError (List Nat) :=
  match parseIPv4FieldsLoop input s s 0 0 0 0 [0, 0, 0, 0] with
  | .error e => .error e
  | .ok (val, pos, fields) =>
    if pos < 3 then .error ⟨input, "IPv4 address too short", ""⟩
    else .ok (fields.set 3 (val % 256))

def parseIPv4 (s : String) : Except parseAddrError Addr :=
  match parseIPv4Fields s s.data with
  | .error e => .error e
  | .ok fields => .ok (AddrFrom4 fields)

/-- The value of a hexadecimal digit, `none` for any other character. -/
def hexDigit (c : Char) : Option Nat :=
  if '0' ≤ c ∧ c ≤ '9' then some (c.toNat - 48)
  else if 'a' ≤ c ∧ c ≤ 'f' then some (c.toNat - 97 + 10)
  else if 'A' ≤ c ∧ c ≤ 'F' then some (c.toNat - 65 + 10)
  else none

/-- The inner loop of `parseIPv6` reading one hexadecimal group of `s`, `cs`
being `s[off:]`; the result is `off` and `acc` when the loop ends. -/
def parseHexGroup (input : String) (s : List Char) :
    List Char → Nat → Nat → Except parseAddrError (Nat × Nat)
  | [], off, acc => .ok (off, acc)
  | c :: cs, off, acc =>
    match hexDigit c with
    | none => .ok (off, acc)
    | some d =>
      let acc1 := ((acc <<< 4) + d) % 4294967296
      if off > 3 then
        .error ⟨input, "each group must have 4 or less digits", String.mk s⟩
      else if acc1 > 65535 then
        .error ⟨input, "IPv6 field has value >=2^16", String.mk s⟩
      else
        parseHexGroup input s cs (off + 1) acc1

/-- The variables of the main loop of `parseIPv6`. -/
structure v6State where
  s : List Char
  i : Nat
  ip : List Nat
  ellipsis : Int
deriving DecidableEq, Repr

/-- The main loop of `parseIPv6`, `for i < 16`. Every iteration that goes on
adds 2 to `i`, so the loop ends within 8 iterations, the number given as the
first argument. The result is the state when the loop is left. -/
def parseIPv6Loop (input : String) : Nat → v6State → Except parseAddrError v6State
  | 0, st => .ok st
  | fuel + 1, st =>
    if st.i < 16 then
      match parseHexGroup input st.s st.s 0 0 with
      | .error e => .error e
      | .ok (off, acc) =>
        if off = 0 then
          .error ⟨input, "each colon-separated field must have at least one digit",
            String.mk st.s⟩
        else if off < st.s.length ∧ st.s.getD off ' ' = '.' then
          if st.ellipsis < 0 ∧ st.i ≠ 12 then
            .error ⟨input,
              "embedded IPv4 address must replace the final 2 fields of the address",
              String.mk st.s⟩
          else if st.i + 4 > 16 then
            .error ⟨input,
              "too many hex fields to fit an embedded IPv4 at the end of the address",
              String.mk st.s⟩
          else
            match parseIPv4Fields input st.s with
            | .error e => .error e
            | .ok f =>
              .ok { st with
                    s := [],
                    i := st.i + 4,
                    ip := (((st.ip.set st.i (f.getD 0 0)).set (st.i + 1) (f.getD 1 0)).set
                            (st.i + 2) (f.getD 2 0)).set (st.i + 3) (f.getD 3 0) }
        else
          let ip1 := (st.ip.set st.i (acc >>> 8 % 256)).set (st.i + 1) (acc % 256)
          let i1 := st.i + 2
          let s1 := st.s.drop off
          if s1.length = 0 then
            .ok { st with s := s1, i := i1, ip := ip1 }
          else if s1.getD 0 ' ' ≠ ':' then
            .error ⟨input, "unexpected character, want colon", String.mk s1⟩
          else if s1.length = 1 then
            .error ⟨input, "colon must be followed by more characters", String.mk s1⟩
          else
            let s2 := s1.drop 1
            if s2.getD 0 ' ' = ':' then
              if st.ellipsis ≥ 0 then
                .error ⟨input, "multiple :: in address", String.mk s2⟩
              else
                let s3 := s2.drop 1
                if s3.length = 0 then
                  .ok { s := s3, i := i1, ip := ip1, ellipsis := i1 }
                else
                  parseIPv6Loop input fuel { s := s3, i := i1, ip := ip1, ellipsis := i1 }
            else
              parseIPv6Loop input fuel { st with s := s2, i := i1, ip := ip1 }
    else
      .ok st

/-- The expansion of the ellipsis at the end of `parseIPv6`: the bytes from
`ellipsis` to `i - 1` move up by `n = 16 - i` places, last byte first, and
the `n` bytes from `ellipsis` on are cleared. -/
def expandEllipsis (ip : List Nat) (i ellipsis : Nat) : List Nat :=
  let n := 16 - i
  let moved := (List.range (i - ellipsis)).foldl
    (fun a k => a.set (i - 1 - k + n) (a.getD (i - 1 - k) 0)) ip
  (List.range n).foldl (fun a k => a.set (ellipsis + k) 0) moved

/-- Go's `parseIPv6`. -/
def parseIPv6 (input : String) : Except parseAddrError Addr :=
  let whole := input.data
  let s0 := whole.takeWhile (fun c => c ≠ '%')
  let hasZone := decide (s0.length < whole.length)
  let zone := String.mk (whole.drop (s0.length + 1))
  if hasZone ∧ zone = "" then
    .error ⟨input, "zone must be a non-empty string", ""⟩
  else
    let lead := decide (s0.length ≥ 2 ∧ s0.getD 0 ' ' = ':' ∧ s0.getD 1 ' ' = ':')
    let s1 := if lead then s0.drop 2 else s0
    if lead ∧ s1.length = 0 then
      .ok (IPv6Unspecified.WithZone zone)
    else
      match parseIPv6Loop input 8
          { s := s1, i := 0, ip := List.replicate 16 0,
            ellipsis := if lead then 0 else -1 } with
      | .error e => .error e
      | .ok st =>
        if st.s.length ≠ 0 then
          .error ⟨input, "trailing garbage after address", String.mk st.s⟩
        else if st.i < 16 then
          if st.ellipsis < 0 then
            .error ⟨input, "address string too short", ""⟩
          else
            .ok ((AddrFrom16 (expandEllipsis st.ip st.i st.ellipsis.toNat)).WithZone zone)
        else if st.ellipsis ≥ 0 then
          .error ⟨input, "the :: must expand to at least one field of zeros", ""⟩
        else
          .ok ((AddrFrom16 st.ip).WithZone zone)

/-- The scan of `ParseAddr` for the first `.`, `:` or `%` of `s`. -/
def ParseAddrScan (s : String) : List Char → Except parseAddrError Addr
  | [] => .error ⟨s, "unable to parse IP", ""⟩
  | c :: cs =>
    if c = '.' then parseIPv4 s
    else if c = ':' then parseIPv6 s
    else if c = '%' then .error ⟨s, "missing IPv6 address", ""⟩
    else ParseAddrScan s cs

/-- Go's `netip.ParseAddr`. -/
def ParseAddr (s : String) : Except parseAddrError Addr :=
  ParseAddrScan s s.data

end netip

namespace clickhouse

/-- The error values that `Append` can return. `ErrNodeIsNil` is the
package-level sentinel; `coercion` stands for the errors of the JSON library;
`parse` carries the error of `netip.ParseAddr`; `errorf` is a value made by
`fmt.Errorf` with the formatted message; `panic` marks a run-time panic of a
callee, which is not an error value and is kept so that the model is total. -/
inductive Error where
  | ErrNodeIsNil
  | coercion (msg : String)
  | parse (e : netip.parseAddrError)
  | errorf (msg : String)
  | panic (msg : String)
deriving DecidableEq, Repr

end clickhouse

namespace insaneJSON

open clickhouse in
/-- A non-nil `*insaneJSON.StrictNode`, given by the results of the methods
the adapters call on it. -/
structure StrictNode where
  IsNull : Bool
  AsInt : Except Error Int
  AsInt64 : Except Error Int
  AsString : Except Error String

end insaneJSON

namespace time

/-- A `time.Time`, as the Unix second and the nanosecond within that second
that it denotes. -/
structure Time where
  sec : Int
  nsec : Int
deriving DecidableEq, Repr

end time

/-- Reduction of an integer into the range of `int64`, as two's complement
arithmetic does. -/
def wrapInt64 (x : Int) : Int := (x + 9223372036854775808) % 18446744073709551616 - 9223372036854775808

namespace time

/-- Go's `time.Unix(sec, nsec)`: a nanosecond count outside `[0, 1e9)` is
carried into the seconds. -/
def Unix (sec nsec : Int) : Time :=
  if nsec < 0 ∨ nsec ≥ 1000000000 then
    let n := Int.tdiv nsec 1000000000
    let sec1 := wrapInt64 (sec + n)
    let nsec1 := wrapInt64 (nsec - wrapInt64 (n * 1000000000))
    if nsec1 < 0 then
      { sec := wrapInt64 (sec1 - 1), nsec := wrapInt64 (nsec1 + 1000000000) }
    else
      { sec := sec1, nsec := nsec1 }
  else
    { sec := sec, nsec := nsec }

/-- The method `Unix` of a `time.Time`: its Unix second. -/
def Time.Unix (t : Time) : Int := t.sec

/-- The method `UnixNano` of a `time.Time`: seconds times 1e9 plus
nanoseconds, in `int64` arithmetic. -/
def Time.UnixNano (t : Time) : Int := wrapInt64 (t.sec * 1000000000 + t.nsec)

/-- The method `IsZero` of a `time.Time`: whether it is the zero `Time`,
January 1 of year 1, that is Unix second -62135596800, nanosecond 0. -/
def Time.IsZero (t : Time) : Bool := t.sec == -62135596800 && t.nsec == 0

end time

namespace proto

/-- The Go type `proto.DateTime`, a `uint32` count of seconds. -/
abbrev DateTime := Nat

/-- Go's `proto.ToDateTime`: 0 for the zero `Time`, else the conversion of
`t.Unix()` to `uint32`, which keeps the low 32 bits. -/
def ToDateTime (t : time.Time) : DateTime :=
  if t.IsZero then 0 else (t.Unix % 4294967296).toNat

/-- The buffer `proto.ColDateTime`: its field `Data`, the second counts
appended so far. -/
structure ColDateTime where
  vals : List DateTime
deriving DecidableEq, Repr

/-- The method `(*proto.ColDateTime).Append`. -/
def ColDateTime.Append (c : ColDateTime) (v : time.Time) : ColDateTime :=
  { vals := c.vals ++ [ToDateTime v] }

/-- The Go type `proto.DateTime64`, an `int64` count of ticks of the
precision of its column. -/
abbrev DateTime64 := Int

/-- The method `Scale` of a `proto.Precision` `p`: the number of nanoseconds
in one tick, 10 to the power `9 - p`, and 1 from precision 9 on. -/
def PrecisionScale (p : Nat) : Int := 10 ^ (9 - p)

/-- Go's `proto.ToDateTime64`: 0 for the zero `Time`, else `t.UnixNano()`
divided by the scale of the precision, truncated. -/
def ToDateTime64 (t : time.Time) (p : Nat) : DateTime64 :=
  if t.IsZero then 0 else Int.tdiv t.UnixNano (PrecisionScale p)

/-- The buffer `proto.ColDateTime64`: its field `Data`, the tick counts
appended so far, its precision, and whether the precision has been set. -/
structure ColDateTime64 where
  vals : List DateTime64
  Precision : Nat
  PrecisionSet : Bool
deriving DecidableEq, Repr

/-- The method `(*proto.ColDateTime64).Append`; `none` is its panic on a
column whose precision has not been set. -/
def ColDateTime64.Append (c : ColDateTime64) (v : time.Time) : Option ColDateTime64 :=
  if !c.PrecisionSet then none
  else some { c with vals := c.vals ++ [ToDateTime64 v c.Precision] }

/-- The buffer `proto.ColEnum`: the strings appended so far. -/
structure ColEnum where
  vals : List String
deriving DecidableEq, Repr

/-- The method `(*proto.ColEnum).Append`. -/
def ColEnum.Append (c : ColEnum) (v : String) : ColEnum :=
  { vals := c.vals ++ [v] }

/-- The Go type `proto.IPv4`, a `uint32`. -/
abbrev IPv4 := Nat

/-- The Go type `proto.IPv6`, a `[16]byte`. -/
structure IPv6 where
  bytes : List Nat
deriving DecidableEq, Repr

instance : Inhabited IPv6 := ⟨{ bytes := List.replicate 16 0 }⟩

/-- The Go type `proto.Nullable[T]`. -/
structure Nullable (T : Type) where
  Set : Bool
  Value : T
deriving DecidableEq, Repr

/-- Go's `proto.Null[T]()`: the unset wrapper around the zero value. -/
def Null {T : Type} [Inhabited T] : Nullable T :=
  { Set := false, Value := default }

/-- Go's `proto.NewNullable(v)`. -/
def NewNullable {T : Type} (v : T) : Nullable T :=
  { Set := true, Value := v }

/-- Go's `binary.BigEndian.Uint32` on a slice of four bytes. -/
def beUint32 (b : List Nat) : Nat :=
  b.foldl (fun acc x => acc * 256 + x % 256) 0

/-- Go's `proto.ToIPv4`: the big-endian `uint32` of `ip.As4()`; `none` when
`As4` panics. -/
def ToIPv4 (ip : netip.Addr) : Option IPv4 :=
  match ip.As4 with
  | none => none
  | some b => some (beUint32 b)

/-- Go's `proto.ToIPv6`: `ip.As16()`. -/
def ToIPv6 (ip : netip.Addr) : IPv6 :=
  { bytes := ip.As16 }

/-- The buffer `proto.ColIPv4`: the addresses appended so far. -/
structure ColIPv4 where
  vals : List IPv4
deriving DecidableEq, Repr

def ColIPv4.Append (c : ColIPv4) (v : IPv4) : ColIPv4 :=
  { vals := c.vals ++ [v] }

/-- The buffer `proto.ColIPv6`: the addresses appended so far. -/
structure ColIPv6 where
  vals : List IPv6
deriving DecidableEq, Repr

def ColIPv6.Append (c : ColIPv6) (v : IPv6) : ColIPv6 :=
  { vals := c.vals ++ [v] }

/-- The buffer `proto.ColNullable[T]`: the wrapped values appended so far. -/
structure ColNullable (T : Type) where
  vals : List (Nullable T)
deriving DecidableEq, Repr

def ColNullable.Append {T : Type} (c : ColNullable T) (v : Nullable T) : ColNullable T :=
  { vals := c.vals ++ [v] }

end proto

namespace clickhouse

open insaneJSON

/-- The test `node == nil || node.IsNull()` that opens every `Append`. -/
def nodeIsNil (node : Option StrictNode) : Bool :=
  match node with
  | none => true
  | some n => n.IsNull

/-- The adapter `ColDateTime`. -/
structure ColDateTime where
  col : proto.ColDateTime
deriving DecidableEq, Repr

def NewColDateTime (col : proto.ColDateTime) : ColDateTime :=
  { col := col }

def ColDateTime.Append (t : ColDateTime) (node : Option StrictNode) :
    ColDateTime × Option Error :=
  match node with
  | none => (t, some Error.ErrNodeIsNil)
  | some n =>
    if n.IsNull then (t, some Error.ErrNodeIsNil)
    else
      match n.AsInt with
      | .error err => (t, some err)
      | .ok v =>
        let val := time.Unix v 0
        ({ t with col := t.col.Append val }, none)

/-- The adapter `ColDateTime64`. -/
structure ColDateTime64 where
  col : proto.ColDateTime64
  scale : Int
deriving DecidableEq, Repr

def NewColDateTime64 (col : proto.ColDateTime64) (scale : Int) : ColDateTime64 :=
  { col := col, scale := scale }

def ColDateTime64.Append (t : ColDateTime64) (node : Option StrictNode) :
    ColDateTime64 × Option Error :=
  match node with
  | none => (t, some Error.ErrNodeIsNil)
  | some n =>
    if n.IsNull then (t, some Error.ErrNodeIsNil)
    else
      match n.AsInt64 with
      | .error err => (t, some err)
      | .ok v =>
        let nsec := wrapInt64 (v * t.scale)
        let val := time.Unix (Int.tdiv nsec 1000000000) (Int.tmod nsec 1000000000)
        match t.col.Append val with
        | none => (t, some (Error.panic "DateTime64: no precision set"))
        | some col => ({ t with col := col }, none)

/-- The adapter `ColIPv4`. -/
structure ColIPv4 where
  col : proto.ColIPv4
  nullCol : proto.ColNullable proto.IPv4
  nullable : Bool
deriving DecidableEq, Repr

def NewColIPv4 (nullable : Bool) : ColIPv4 :=
  { col := { vals := [] }, nullCol := { vals := [] }, nullable := nullable }

def ColIPv4.Append (t : ColIPv4) (node : Option StrictNode) :
    ColIPv4 × Option Error :=
  let onNil : ColIPv4 × Option Error :=
    if !t.nullable then (t, some Error.ErrNodeIsNil)
    else ({ t with nullCol := t.nullCol.Append proto.Null }, none)
  match node with
  | none => onNil
  | some n =>
    if n.IsNull then onNil
    else
      match n.AsString with
      | .error err => (t, some err)
      | .ok v =>
        match netip.ParseAddr v with
        | .error err => (t, some (Error.parse err))
        | .ok addr =>
          if !addr.Is4 then
            (t, some (Error.errorf ("invalid IPv6 value, val=" ++ v)))
          else
            match proto.ToIPv4 addr with
            | none => (t, some (Error.panic "As4 called on IPv6 address"))
            | some val =>
              if t.nullable then
                ({ t with nullCol := t.nullCol.Append (proto.NewNullable val) }, none)
              else
                ({ t with col := t.col.Append val }, none)

/-- The adapter `ColIPv6`. -/
structure ColIPv6 where
  col : proto.ColIPv6
  nullCol : proto.ColNullable proto.IPv6
  nullable : Bool
deriving DecidableEq, Repr

def NewColIPv6 (nullable : Bool) : ColIPv6 :=
  { col := { vals := [] }, nullCol := { vals := [] }, nullable := nullable }

def ColIPv6.Append (t : ColIPv6) (node : Option StrictNode) :
    ColIPv6 × Option Error :=
  let onNil : ColIPv6 × Option Error :=
    if !t.nullable then (t, some Error.ErrNodeIsNil)
    else ({ t with nullCol := t.nullCol.Append proto.Null }, none)
  match node with
  | none => onNil
  | some n =>
    if n.IsNull then onNil
    else
      match n.AsString with
      | .error err => (t, some err)
      | .ok v =>
        match netip.ParseAddr v with
        | .error err => (t, some (Error.parse err))
        | .ok addr =>
          if !addr.Is6 then
            (t, some (Error.errorf ("invalid IPv6 value, val=" ++ v)))
          else
            let val := proto.ToIPv6 addr
            if t.nullable then
              ({ t with nullCol := t.nullCol.Append (proto.NewNullable val) }, none)
            else
              ({ t with col := t.col.Append val }, none)

/-- The adapter `ColEnum8`. -/
structure ColEnum8 where
  col : proto.ColEnum
deriving DecidableEq, Repr

def NewColEnum8 (col : proto.ColEnum) : ColEnum8 :=
  { col := col }

def ColEnum8.Append (t : ColEnum8) (node : Option StrictNode) :
    ColEnum8 × Option Error :=
  match node with
  | none => (t, some Error.ErrNodeIsNil)
  | some n =>
    if n.IsNull then (t, some Error.ErrNodeIsNil)
    else
      match n.AsString with
      | .error err => (t, some err)
      | .ok val => ({ t with col := t.col.Append val }, none)

/-- The adapter `ColEnum16`. -/
structure ColEnum16 where
  col : proto.ColEnum
deriving DecidableEq, Repr

/-- The source's `NewColEnum16` returns a `*ColEnum8`. -/
def NewColEnum16 (col : proto.ColEnum) : ColEnum8 :=
  { col := col }

def ColEnum16.Append (t : ColEnum16) (node : Option StrictNode) :
    ColEnum16 × Option Error :=
  match node with
  | none => (t, some Error.ErrNodeIsNil)
  | some n =>
    if n.IsNull then (t, some Error.ErrNodeIsNil)
    else
      match n.AsString with
      | .error err => (t, some err)
      | .ok val => ({ t with col := t.col.Append val }, none)

/-- A run of `Append` calls on one `ColIPv4`, in the order of the list, the
returned errors being dropped by the caller. -/
def ColIPv4.AppendAll (t : ColIPv4) : List (Option StrictNode) → ColIPv4
  | [] => t
  | node :: rest => ColIPv4.AppendAll (t.Append node).1 rest

/-- A run of `Append` calls on one `ColIPv6`, in the order of the list, the
returned errors being dropped by the caller. -/
def ColIPv6.AppendAll (t : ColIPv6) : List (Option StrictNode) → ColIPv6
  | [] => t
  | node :: rest => ColIPv6.AppendAll (t.Append node).1 rest

/-- A run of `Append` calls on one `ColDateTime`, in the order of the list,
the returned errors being dropped by the caller. -/
def ColDateTime.AppendAll (t : ColDateTime) : List (Option StrictNode) → ColDateTime
  | [] => t
  | node :: rest => ColDateTime.AppendAll (t.Append node).1 rest

/-- A run of `Append` calls on one `ColDateTime64`, in the order of the list,
the returned errors being dropped by the caller. -/
def ColDateTime64.AppendAll (t : ColDateTime64) : List (Option StrictNode) → ColDateTime64
  | [] => t
  | node :: rest => ColDateTime64.AppendAll (t.Append node).1 rest

/-- A run of `Append` calls on one `ColEnum8`, in the order of the list, the
returned errors being dropped by the caller. -/
def ColEnum8.AppendAll (t : ColEnum8) : List (Option StrictNode) → ColEnum8
  | [] => t
  | node :: rest => ColEnum8.AppendAll (t.Append node).1 rest

/-- A run of `Append` calls on one `ColEnum16`, in the order of the list, the
returned errors being dropped by the caller. -/
def ColEnum16.AppendAll (t : ColEnum16) : List (Option StrictNode) → ColEnum16
  | [] => t
  | node :: rest => ColEnum16.AppendAll (t.Append node).1 rest

/-- What it means for an adapter to stay usable after an error and to keep
the order of the calls. `step` is its `Append`, `run` a run of calls, `buf`
one of its buffers, `fresh t` the adapter with the configuration of `t` (for
`ColDateTime64` the scale and the precision of its column) and empty buffers, and `live t` tells whether `buf` is the buffer that the
configuration of `t` writes to. For every state `t` and every list of nodes:

* the error returned by a call made after any earlier calls is the error
  that a fresh adapter of the same configuration returns for that node;
* a fresh adapter puts nothing in `buf` for a node it refuses, and exactly
  one value in the live buffer for a node it accepts: the converted value;
* after the run, `buf` is the initial `buf` followed by the converted values
  of the accepted nodes, in the order of the calls;
* the run without the refused nodes ends in the same state. -/
def AppendsInOrder {S V : Type} (step : S → Option StrictNode → S × Option Error)
    (run : S → List (Option StrictNode) → S) (buf : S → List V) (fresh : S → S)
    (live : S → Bool) : Prop :=
  ∀ (t : S) (nodes : List (Option StrictNode)),
    (∀ pre node, (step (run t pre) node).2 = (step (fresh t) node).2) ∧
    (∀ node, (step (fresh t) node).2 ≠ none → buf (step (fresh t) node).1 = []) ∧
    (∀ node, (step (fresh t) node).2 = none → live t = true →
      (buf (step (fresh t) node).1).length = 1) ∧
    buf (run t nodes) = buf t ++ nodes.flatMap (fun node => buf (step (fresh t) node).1) ∧
    run t (nodes.filter (fun node => (step t node).2.isNone)) = run t nodes

/-- A node holding the JSON string `s`: not null, no integer reading. -/
def stringNode (s : String) : StrictNode :=
  { IsNull := false,
    AsInt := .error (Error.coercion "node isn't a number"),
    AsInt64 := .error (Error.coercion "node isn't a number"),
    AsString := .ok s }

/-- A node holding the JSON number `v`: not null, no string reading. -/
def numberNode (v : Int) : StrictNode :=
  { IsNull := false,
    AsInt := .ok v,
    AsInt64 := .ok v,
    AsString := .error (Error.coercion "node isn't a string") }

/-- A node holding JSON `null`; every coercion is given a result all the
same, to show that `Append` does not look at it. -/
def nullNode : StrictNode :=
  { IsNull := true,
    AsInt := .ok 7,
    AsInt64 := .ok 7,
    AsString := .ok "203.0.113.5" }

end clickhouse

/-! ## Theorems -/

namespace clickhouse

open insaneJSON

/-- C1: in a non-nullable configuration (`ColDateTime`, `ColDateTime64`,
`ColEnum8`, `ColEnum16`, and `ColIPv4` / `ColIPv6` with `nullable = false`),
`Append` on a nil node or on a node whose `IsNull()` is true returns
`ErrNodeIsNil`, whatever the coercions of the node would return, and leaves
the whole adapter state, hence every buffer, as it was. -/
theorem C1_nil_node_rejected (node : Option StrictNode) (h : nodeIsNil node = true) :
    (∀ t : ColDateTime, t.Append node = (t, some Error.ErrNodeIsNil)) ∧
    (∀ t : ColDateTime64, t.Append node = (t, some Error.ErrNodeIsNil)) ∧
    (∀ t : ColEnum8, t.Append node = (t, some Error.ErrNodeIsNil)) ∧
    (∀ t : ColEnum16, t.Append node = (t, some Error.ErrNodeIsNil)) ∧
    (∀ t : ColIPv4, t.nullable = false → t.Append node = (t, some Error.ErrNodeIsNil)) ∧
    (∀ t : ColIPv6, t.nullable = false → t.Append node = (t, some Error.ErrNodeIsNil)) := by
  cases node with
  | none =>
    refine ⟨fun _ => rfl, fun _ => rfl, fun _ => rfl, fun _ => rfl, ?_, ?_⟩
    · intro t ht
      simp [ColIPv4.Append, ht]
    · intro t ht
      simp [ColIPv6.Append, ht]
  | some n =>
    have hn : n.IsNull = true := h
    refine ⟨?_, ?_, ?_, ?_, ?_, ?_⟩
    · intro t
      simp [ColDateTime.Append, hn]
    · intro t
      simp [ColDateTime64.Append, hn]
    · intro t
      simp [ColEnum8.Append, hn]
    · intro t
      simp [ColEnum16.Append, hn]
    · intro t ht
      simp [ColIPv4.Append, hn, ht]
    · intro t ht
      simp [ColIPv6.Append, hn, ht]

/-- Witness of C1: a null node whose coercions would all succeed, and the nil
node, are rejected by adapters that already hold a value. -/
theorem C1_nil_node_rejected_witness :
    nodeIsNil (some nullNode) = true ∧
    ColDateTime.Append { col := { vals := [1] } } (some nullNode)
      = ({ col := { vals := [1] } }, some Error.ErrNodeIsNil) ∧
    ColEnum16.Append { col := { vals := ["a"] } } (some nullNode)
      = ({ col := { vals := ["a"] } }, some Error.ErrNodeIsNil) ∧
    (NewColIPv4 false).Append (some nullNode) = (NewColIPv4 false, some Error.ErrNodeIsNil) ∧
    (NewColIPv6 false).Append (some nullNode) = (NewColIPv6 false, some Error.ErrNodeIsNil) :=
  ⟨rfl,
   (C1_nil_node_rejected (some nullNode) rfl).1 _,
   (C1_nil_node_rejected (some nullNode) rfl).2.2.2.1 _,
   (C1_nil_node_rejected (some nullNode) rfl).2.2.2.2.1 _ rfl,
   (C1_nil_node_rejected (some nullNode) rfl).2.2.2.2.2 _ rfl⟩

/-- C2: no partial append. For each of the six adapters, every state and
every node: when `Append` returns an error, the adapter state after the call
is the state before it, so every buffer it owns (both buffers of the IP
adapters) has the same contents and length. -/
theorem C2_no_partial_append (node : Option StrictNode) :
    (∀ t : ColDateTime, (t.Append node).2 ≠ none → (t.Append node).1 = t) ∧
    (∀ t : ColDateTime64, (t.Append node).2 ≠ none → (t.Append node).1 = t) ∧
    (∀ t : ColIPv4, (t.Append node).2 ≠ none → (t.Append node).1 = t) ∧
    (∀ t : ColIPv6, (t.Append node).2 ≠ none → (t.Append node).1 = t) ∧
    (∀ t : ColEnum8, (t.Append node).2 ≠ none → (t.Append node).1 = t) ∧
    (∀ t : ColEnum16, (t.Append node).2 ≠ none → (t.Append node).1 = t) := by
  refine ⟨?_, ?_, ?_, ?_, ?_, ?_⟩
  · intro t
    unfold ColDateTime.Append
    split
    · simp
    · split
      · simp
      · split <;> simp
  · intro t
    unfold ColDateTime64.Append
    split
    · simp
    · split
      · simp
      · split
        · simp
        · simp only []
          split <;> simp
  · intro t
    unfold ColIPv4.Append
    cases hn : t.nullable <;> (repeat (first | split | simp))
  · intro t
    unfold ColIPv6.Append
    cases hn : t.nullable <;> (repeat (first | split | simp))
  · intro t
    unfold ColEnum8.Append
    split
    · simp
    · split
      · simp
      · split <;> simp
  · intro t
    unfold ColEnum16.Append
    split
    · simp
    · split
      · simp
      · split <;> simp

/-- Witness of C2: a family error on a nullable `ColIPv4` that already holds
entries in both buffers, a parse error on a `ColIPv6`, and a coercion error
on a `ColDateTime64` leave the adapter as it was. -/
theorem C2_no_partial_append_witness :
    ((ColIPv4.mk { vals := [16909060] } { vals := [proto.Null] } true).Append
        (some (stringNode "2001:db8::1"))).2 ≠ none ∧
    ((ColIPv4.mk { vals := [16909060] } { vals := [proto.Null] } true).Append
        (some (stringNode "2001:db8::1"))).1
      = ColIPv4.mk { vals := [16909060] } { vals := [proto.Null] } true ∧
    ((NewColIPv6 false).Append (some (stringNode "not-an-ip"))).1 = NewColIPv6 false ∧
    ((NewColDateTime64 { vals := [1000000002], Precision := 9, PrecisionSet := true }
        1000).Append (some (stringNode "12"))).1
      = NewColDateTime64 { vals := [1000000002], Precision := 9, PrecisionSet := true } 1000 :=
  ⟨by decide,
   (C2_no_partial_append (some (stringNode "2001:db8::1"))).2.2.1 _ (by decide),
   (C2_no_partial_append (some (stringNode "not-an-ip"))).2.2.2.1 _ (by decide),
   (C2_no_partial_append (some (stringNode "12"))).2.1 _ (by decide)⟩

/-- C3: on a `ColIPv4` or `ColIPv6` with `nullable = true`, `Append` on a nil
or null node returns no error, the nullable buffer grows by exactly one entry,
put last, which is the null marker (`Set = false`), and the non-nullable
buffer and the flag are as before. -/
theorem C3_nullable_appends_null (node : Option StrictNode) (h : nodeIsNil node = true) :
    (∀ t : ColIPv4, t.nullable = true →
      (t.Append node).2 = none ∧
      (t.Append node).1.nullCol.vals = t.nullCol.vals ++ [proto.Null] ∧
      (t.Append node).1.nullCol.vals.length = t.nullCol.vals.length + 1 ∧
      (t.Append node).1.col = t.col ∧
      (t.Append node).1.nullable = true) ∧
    (∀ t : ColIPv6, t.nullable = true →
      (t.Append node).2 = none ∧
      (t.Append node).1.nullCol.vals = t.nullCol.vals ++ [proto.Null] ∧
      (t.Append node).1.nullCol.vals.length = t.nullCol.vals.length + 1 ∧
      (t.Append node).1.col = t.col ∧
      (t.Append node).1.nullable = true) ∧
    (proto.Null : proto.Nullable proto.IPv4).Set = false ∧
    (proto.Null : proto.Nullable proto.IPv6).Set = false := by
  cases node with
  | none =>
    refine ⟨?_, ?_, rfl, rfl⟩
    · intro t ht
      simp [ColIPv4.Append, ht, proto.ColNullable.Append]
    · intro t ht
      simp [ColIPv6.Append, ht, proto.ColNullable.Append]
  | some n =>
    have hn : n.IsNull = true := h
    refine ⟨?_, ?_, rfl, rfl⟩
    · intro t ht
      simp [ColIPv4.Append, hn, ht, proto.ColNullable.Append]
    · intro t ht
      simp [ColIPv6.Append, hn, ht, proto.ColNullable.Append]

/-- Witness of C3: the nil node on a fresh nullable `ColIPv4`, and a null node
on a nullable `ColIPv6` that already holds an address. -/
theorem C3_nullable_appends_null_witness :
    ((NewColIPv4 true).Append none).2 = none ∧
    ((NewColIPv4 true).Append none).1.nullCol.vals = [] ++ [proto.Null] ∧
    ((NewColIPv4 true).Append none).1.col = { vals := [] } ∧
    ((ColIPv6.mk { vals := [] } { vals := [proto.NewNullable default] } true).Append
        (some nullNode)).1.nullCol.vals
      = [proto.NewNullable default] ++ [proto.Null] :=
  ⟨((C3_nullable_appends_null none rfl).1 (NewColIPv4 true) rfl).1,
   ((C3_nullable_appends_null none rfl).1 (NewColIPv4 true) rfl).2.1,
   ((C3_nullable_appends_null none rfl).1 (NewColIPv4 true) rfl).2.2.2.1,
   ((C3_nullable_appends_null (some nullNode) rfl).2.1 _ rfl).2.1⟩

theorem ColIPv4_Append_cases (t : ColIPv4) (node : Option StrictNode) :
    (∃ e, t.Append node = (t, some e)) ∨
    (t.nullable = true ∧
      ∃ x, t.Append node = ({ t with nullCol := t.nullCol.Append x }, none)) ∨
    (t.nullable = false ∧
      ∃ v, t.Append node = ({ t with col := t.col.Append v }, none)) := by
  have hnil : ∀ x : ColIPv4 × Option Error,
      x = (if !t.nullable then (t, some Error.ErrNodeIsNil)
            else ({ t with nullCol := t.nullCol.Append proto.Null }, none)) →
      (∃ e, x = (t, some e)) ∨
      (t.nullable = true ∧ ∃ y, x = ({ t with nullCol := t.nullCol.Append y }, none)) ∨
      (t.nullable = false ∧ ∃ v, x = ({ t with col := t.col.Append v }, none)) := by
    intro x hx
    cases hb : t.nullable
    · left
      exact ⟨Error.ErrNodeIsNil, by simpa [hb] using hx⟩
    · right
      left
      exact ⟨rfl, proto.Null, by simpa [hb] using hx⟩
  rcases node with _ | n
  · exact hnil _ (by simp [ColIPv4.Append])
  · cases hn : n.IsNull
    · cases hs : n.AsString with
      | error e =>
        left
        exact ⟨e, by simp [ColIPv4.Append, hn, hs]⟩
      | ok v =>
        cases hp : netip.ParseAddr v with
        | error e =>
          left
          exact ⟨Error.parse e, by simp [ColIPv4.Append, hn, hs, hp]⟩
        | ok a =>
          cases h4 : a.Is4
          · left
            exact ⟨Error.errorf ("invalid IPv6 value, val=" ++ v), by simp [ColIPv4.Append, hn, hs, hp, h4]⟩
          · cases hv : proto.ToIPv4 a with
            | none =>
              left
              exact ⟨Error.panic "As4 called on IPv6 address", by simp [ColIPv4.Append, hn, hs, hp, h4, hv]⟩
            | some val =>
              cases hb : t.nullable
              · right
                right
                exact ⟨rfl, val, by simp [ColIPv4.Append, hn, hs, hp, h4, hv, hb]⟩
              · right
                left
                exact ⟨rfl, proto.NewNullable val, by simp [ColIPv4.Append, hn, hs, hp, h4, hv, hb]⟩
    · exact hnil _ (by simp [ColIPv4.Append, hn])

theorem ColIPv6_Append_cases (t : ColIPv6) (node : Option StrictNode) :
    (∃ e, t.Append node = (t, some e)) ∨
    (t.nullable = true ∧
      ∃ x, t.Append node = ({ t with nullCol := t.nullCol.Append x }, none)) ∨
    (t.nullable = false ∧
      ∃ v, t.Append node = ({ t with col := t.col.Append v }, none)) := by
  have hnil : ∀ x : ColIPv6 × Option Error,
      x = (if !t.nullable then (t, some Error.ErrNodeIsNil)
            else ({ t with nullCol := t.nullCol.Append proto.Null }, none)) →
      (∃ e, x = (t, some e)) ∨
      (t.nullable = true ∧ ∃ y, x = ({ t with nullCol := t.nullCol.Append y }, none)) ∨
      (t.nullable = false ∧ ∃ v, x = ({ t with col := t.col.Append v }, none)) := by
    intro x hx
    cases hb : t.nullable
    · left
      exact ⟨Error.ErrNodeIsNil, by simpa [hb] using hx⟩
    · right
      left
      exact ⟨rfl, proto.Null, by simpa [hb] using hx⟩
  rcases node with _ | n
  · exact hnil _ (by simp [ColIPv6.Append])
  · cases hn : n.IsNull
    · cases hs : n.AsString with
      | error e =>
        left
        exact ⟨e, by simp [ColIPv6.Append, hn, hs]⟩
      | ok v =>
        cases hp : netip.ParseAddr v with
        | error e =>
          left
          exact ⟨Error.parse e, by simp [ColIPv6.Append, hn, hs, hp]⟩
        | ok a =>
          cases h6 : a.Is6
          · left
            exact ⟨Error.errorf ("invalid IPv6 value, val=" ++ v), by simp [ColIPv6.Append, hn, hs, hp, h6]⟩
          · cases hb : t.nullable
            · right
              right
              exact ⟨rfl, proto.ToIPv6 a, by simp [ColIPv6.Append, hn, hs, hp, h6, hb]⟩
            · right
              left
              exact ⟨rfl, proto.NewNullable (proto.ToIPv6 a), by simp [ColIPv6.Append, hn, hs, hp, h6, hb]⟩
    · exact hnil _ (by simp [ColIPv6.Append, hn])

theorem ColIPv4_Append_nullable (t : ColIPv4) (node : Option StrictNode) :
    (t.Append node).1.nullable = t.nullable := by
  rcases ColIPv4_Append_cases t node with ⟨e, h⟩ | ⟨_, x, h⟩ | ⟨_, v, h⟩ <;> rw [h]

theorem ColIPv6_Append_nullable (t : ColIPv6) (node : Option StrictNode) :
    (t.Append node).1.nullable = t.nullable := by
  rcases ColIPv6_Append_cases t node with ⟨e, h⟩ | ⟨_, x, h⟩ | ⟨_, v, h⟩ <;> rw [h]

theorem ColIPv4_Append_col_of_nullable (t : ColIPv4) (node : Option StrictNode)
    (h : t.nullable = true) : (t.Append node).1.col = t.col := by
  rcases ColIPv4_Append_cases t node with ⟨e, h1⟩ | ⟨_, x, h1⟩ | ⟨hf, v, h1⟩
  · rw [h1]
  · rw [h1]
  · rw [h] at hf
    cases hf

theorem ColIPv4_Append_nullCol_of_not_nullable (t : ColIPv4) (node : Option StrictNode)
    (h : t.nullable = false) : (t.Append node).1.nullCol = t.nullCol := by
  rcases ColIPv4_Append_cases t node with ⟨e, h1⟩ | ⟨hf, x, h1⟩ | ⟨_, v, h1⟩
  · rw [h1]
  · rw [h] at hf
    cases hf
  · rw [h1]

theorem ColIPv6_Append_col_of_nullable (t : ColIPv6) (node : Option StrictNode)
    (h : t.nullable = true) : (t.Append node).1.col = t.col := by
  rcases ColIPv6_Append_cases t node with ⟨e, h1⟩ | ⟨_, x, h1⟩ | ⟨hf, v, h1⟩
  · rw [h1]
  · rw [h1]
  · rw [h] at hf
    cases hf

theorem ColIPv6_Append_nullCol_of_not_nullable (t : ColIPv6) (node : Option StrictNode)
    (h : t.nullable = false) : (t.Append node).1.nullCol = t.nullCol := by
  rcases ColIPv6_Append_cases t node with ⟨e, h1⟩ | ⟨hf, x, h1⟩ | ⟨_, v, h1⟩
  · rw [h1]
  · rw [h] at hf
    cases hf
  · rw [h1]

theorem ColIPv4_AppendAll_frame (nodes : List (Option StrictNode)) (t : ColIPv4) :
    (t.AppendAll nodes).nullable = t.nullable ∧
    (t.nullable = true → (t.AppendAll nodes).col = t.col) ∧
    (t.nullable = false → (t.AppendAll nodes).nullCol = t.nullCol) := by
  induction nodes generalizing t with
  | nil => simp [ColIPv4.AppendAll]
  | cons node rest ih =>
    have hstep := ColIPv4_Append_nullable t node
    obtain ⟨h1, h2, h3⟩ := ih (t.Append node).1
    refine ⟨?_, ?_, ?_⟩
    · simp [ColIPv4.AppendAll, h1, hstep]
    · intro ht
      simp only [ColIPv4.AppendAll]
      rw [h2 (hstep.trans ht), ColIPv4_Append_col_of_nullable t node ht]
    · intro ht
      simp only [ColIPv4.AppendAll]
      rw [h3 (hstep.trans ht), ColIPv4_Append_nullCol_of_not_nullable t node ht]

theorem ColIPv6_AppendAll_frame (nodes : List (Option StrictNode)) (t : ColIPv6) :
    (t.AppendAll nodes).nullable = t.nullable ∧
    (t.nullable = true → (t.AppendAll nodes).col = t.col) ∧
    (t.nullable = false → (t.AppendAll nodes).nullCol = t.nullCol) := by
  induction nodes generalizing t with
  | nil => simp [ColIPv6.AppendAll]
  | cons node rest ih =>
    have hstep := ColIPv6_Append_nullable t node
    obtain ⟨h1, h2, h3⟩ := ih (t.Append node).1
    refine ⟨?_, ?_, ?_⟩
    · simp [ColIPv6.AppendAll, h1, hstep]
    · intro ht
      simp only [ColIPv6.AppendAll]
      rw [h2 (hstep.trans ht), ColIPv6_Append_col_of_nullable t node ht]
    · intro ht
      simp only [ColIPv6.AppendAll]
      rw [h3 (hstep.trans ht), ColIPv6_Append_nullCol_of_not_nullable t node ht]

/-- C4: buffer exclusivity of the IP adapters. Starting from `NewColIPv4` or
`NewColIPv6` and after any finite run of `Append` calls on arbitrary nodes,
the non-nullable buffer is still empty when `nullable = true` and the
nullable buffer is still empty when `nullable = false`. -/
theorem C4_buffer_exclusivity (nodes : List (Option StrictNode)) :
    ((NewColIPv4 true).AppendAll nodes).col.vals = [] ∧
    ((NewColIPv4 false).AppendAll nodes).nullCol.vals = [] ∧
    ((NewColIPv6 true).AppendAll nodes).col.vals = [] ∧
    ((NewColIPv6 false).AppendAll nodes).nullCol.vals = [] := by
  refine ⟨?_, ?_, ?_, ?_⟩
  · rw [(ColIPv4_AppendAll_frame nodes (NewColIPv4 true)).2.1 rfl]
    rfl
  · rw [(ColIPv4_AppendAll_frame nodes (NewColIPv4 false)).2.2 rfl]
    rfl
  · rw [(ColIPv6_AppendAll_frame nodes (NewColIPv6 true)).2.1 rfl]
    rfl
  · rw [(ColIPv6_AppendAll_frame nodes (NewColIPv6 false)).2.2 rfl]
    rfl

theorem As4_of_Is4 (a : netip.Addr) (h : a.Is4 = true) :
    a.As4 = some [a.addr.lo % 4294967296 / 16777216 % 256, a.addr.lo % 4294967296 / 65536 % 256,
      a.addr.lo % 4294967296 / 256 % 256, a.addr.lo % 4294967296 % 256] := by
  have hz : a.z = netip.zoneTag.z4 := by simpa [netip.Addr.Is4] using h
  simp [netip.Addr.As4, hz, netip.bePutUint32]

theorem beUint32_four (b0 b1 b2 b3 : Nat) (h0 : b0 < 256) (h1 : b1 < 256) (h2 : b2 < 256)
    (h3 : b3 < 256) :
    proto.beUint32 [b0, b1, b2, b3] = b0 * 16777216 + b1 * 65536 + b2 * 256 + b3 := by
  simp only [proto.beUint32, List.foldl]
  rw [Nat.mod_eq_of_lt h0, Nat.mod_eq_of_lt h1, Nat.mod_eq_of_lt h2, Nat.mod_eq_of_lt h3]
  ring

theorem ToIPv4_of_Is4 (a : netip.Addr) (h : a.Is4 = true) :
    proto.ToIPv4 a = some (a.addr.lo % 4294967296 / 16777216 % 256 * 16777216
      + a.addr.lo % 4294967296 / 65536 % 256 * 65536
      + a.addr.lo % 4294967296 / 256 % 256 * 256 + a.addr.lo % 4294967296 % 256) := by
  simp only [proto.ToIPv4, As4_of_Is4 a h]
  rw [beUint32_four _ _ _ _ (Nat.mod_lt _ (by decide)) (Nat.mod_lt _ (by decide))
    (Nat.mod_lt _ (by decide)) (Nat.mod_lt _ (by decide))]

/-- C5: `ColIPv4.Append` on a non-null node that coerces to the string `s`.
If `ParseAddr s` fails, the call returns that parse error; if `s` parses to an
address that is not IPv4, the call returns the family error made by
`fmt.Errorf`; in both cases the adapter is unchanged. Otherwise the call
succeeds and appends exactly one entry, the big-endian value of the four
bytes of the address, wrapped as set to the nullable buffer when
`nullable = true`, bare to the non-nullable buffer otherwise. -/
theorem C5_ipv4_append (t : ColIPv4) (n : StrictNode) (s : String)
    (hnull : n.IsNull = false) (hs : n.AsString = .ok s) :
    (∀ e, netip.ParseAddr s = .error e → t.Append (some n) = (t, some (Error.parse e))) ∧
    (∀ a, netip.ParseAddr s = .ok a → a.Is4 = false →
      t.Append (some n) = (t, some (Error.errorf ("invalid IPv6 value, val=" ++ s)))) ∧
    (∀ a, netip.ParseAddr s = .ok a → a.Is4 = true →
      ∃ b0 b1 b2 b3 : Nat, b0 < 256 ∧ b1 < 256 ∧ b2 < 256 ∧ b3 < 256 ∧
        a.As4 = some [b0, b1, b2, b3] ∧
        (t.nullable = true →
          t.Append (some n)
            = ({ t with nullCol := { vals := t.nullCol.vals ++
                  [{ Set := true, Value := b0 * 16777216 + b1 * 65536 + b2 * 256 + b3 }] } },
               none)) ∧
        (t.nullable = false →
          t.Append (some n)
            = ({ t with col := { vals := t.col.vals ++
                  [b0 * 16777216 + b1 * 65536 + b2 * 256 + b3] } }, none))) := by
  refine ⟨?_, ?_, ?_⟩
  · intro e he
    simp [ColIPv4.Append, hnull, hs, he]
  · intro a ha h4
    simp [ColIPv4.Append, hnull, hs, ha, h4]
  · intro a ha h4
    have h4b := As4_of_Is4 a h4
    refine ⟨_, _, _, _, Nat.mod_lt _ (by decide), Nat.mod_lt _ (by decide),
      Nat.mod_lt _ (by decide), Nat.mod_lt _ (by decide), h4b, ?_, ?_⟩
    · intro hb
      have hv := ToIPv4_of_Is4 a h4
      simp [ColIPv4.Append, hnull, hs, ha, h4, hv, hb, proto.ColNullable.Append,
        proto.NewNullable]
    · intro hb
      have hv := ToIPv4_of_Is4 a h4
      simp [ColIPv4.Append, hnull, hs, ha, h4, hv, hb, proto.ColIPv4.Append]

/-- Witness of C5: `"203.0.113.5"` is appended as the bytes 203, 0, 113, 5
(to either buffer, by the flag), `"2001:db8::1"` gets the family error and
`"not-an-ip"` the parse error. -/
theorem C5_ipv4_append_witness :
    (netip.ParseAddr "203.0.113.5").toOption.bind netip.Addr.As4 = some [203, 0, 113, 5] ∧
    (NewColIPv4 false).Append (some (stringNode "203.0.113.5"))
      = ({ col := { vals := [203 * 16777216 + 0 * 65536 + 113 * 256 + 5] },
           nullCol := { vals := [] }, nullable := false }, none) ∧
    (NewColIPv4 true).Append (some (stringNode "203.0.113.5"))
      = ({ col := { vals := [] },
           nullCol := { vals := [{ Set := true,
                                   Value := 203 * 16777216 + 0 * 65536 + 113 * 256 + 5 }] },
           nullable := true }, none) ∧
    (NewColIPv4 false).Append (some (stringNode "2001:db8::1"))
      = (NewColIPv4 false, some (Error.errorf "invalid IPv6 value, val=2001:db8::1")) ∧
    (NewColIPv4 false).Append (some (stringNode "not-an-ip"))
      = (NewColIPv4 false,
         some (Error.parse { input := "not-an-ip", msg := "unable to parse IP", rest := "" })) := by
  refine ⟨by decide, ?_, ?_, ?_, ?_⟩
  · obtain ⟨b0, b1, b2, b3, _, _, _, _, hb, _, h⟩ :=
      (C5_ipv4_append (NewColIPv4 false) (stringNode "203.0.113.5") "203.0.113.5" rfl rfl).2.2
        (netip.AddrFrom4 [203, 0, 113, 5]) (by rfl) (by rfl)
    have hb2 : (some [203, 0, 113, 5] : Option (List Nat)) = some [b0, b1, b2, b3] :=
      Eq.trans (by decide) hb
    simp only [Option.some.injEq, List.cons.injEq, and_true] at hb2
    obtain ⟨rfl, rfl, rfl, rfl⟩ := hb2
    exact h rfl
  · obtain ⟨b0, b1, b2, b3, _, _, _, _, hb, h, _⟩ :=
      (C5_ipv4_append (NewColIPv4 true) (stringNode "203.0.113.5") "203.0.113.5" rfl rfl).2.2
        (netip.AddrFrom4 [203, 0, 113, 5]) (by rfl) (by rfl)
    have hb2 : (some [203, 0, 113, 5] : Option (List Nat)) = some [b0, b1, b2, b3] :=
      Eq.trans (by decide) hb
    simp only [Option.some.injEq, List.cons.injEq, and_true] at hb2
    obtain ⟨rfl, rfl, rfl, rfl⟩ := hb2
    exact h rfl
  · exact (C5_ipv4_append (NewColIPv4 false) (stringNode "2001:db8::1") "2001:db8::1"
      rfl rfl).2.1 { addr := { hi := 2306139568115548160, lo := 1 }, z := netip.zoneTag.z6noz }
      (by rfl) (by rfl)
  · exact (C5_ipv4_append (NewColIPv4 false) (stringNode "not-an-ip") "not-an-ip"
      rfl rfl).1 _ (by rfl)

theorem As16_length (a : netip.Addr) : a.As16.length = 16 := by
  simp [netip.Addr.As16, netip.bePutUint64]

theorem As16_byte (a : netip.Addr) : ∀ b ∈ a.As16, b < 256 := by
  intro b hb
  simp only [netip.Addr.As16, netip.bePutUint64, List.cons_append, List.nil_append,
    List.mem_cons, List.mem_singleton, List.not_mem_nil, or_false] at hb
  rcases hb with h | h | h | h | h | h | h | h | h | h | h | h | h | h | h | h <;>
    (rw [h]; exact Nat.mod_lt _ (by decide))

/-- C6: `ColIPv6.Append` on a non-null node that coerces to the string `s`
succeeds if and only if `s` parses as an IP address that is IPv6, and then
appends exactly one entry, the 16 bytes of the address, to the live buffer
(wrapped as set to the nullable buffer when `nullable = true`, bare to the
non-nullable buffer otherwise). If `s` parses to an address that is not IPv6
the call returns the family error, if `s` does not parse it returns the parse
error, and in both cases the adapter is unchanged. -/
theorem C6_ipv6_append (t : ColIPv6) (n : StrictNode) (s : String)
    (hnull : n.IsNull = false) (hs : n.AsString = .ok s) :
    ((t.Append (some n)).2 = none ↔ ∃ a, netip.ParseAddr s = .ok a ∧ a.Is6 = true) ∧
    (∀ a, netip.ParseAddr s = .ok a → a.Is6 = true →
      a.As16.length = 16 ∧ (∀ b ∈ a.As16, b < 256) ∧
      (t.nullable = true →
        t.Append (some n)
          = ({ t with nullCol := { vals := t.nullCol.vals ++
                [{ Set := true, Value := { bytes := a.As16 } }] } }, none)) ∧
      (t.nullable = false →
        t.Append (some n)
          = ({ t with col := { vals := t.col.vals ++ [{ bytes := a.As16 }] } }, none))) ∧
    (∀ a, netip.ParseAddr s = .ok a → a.Is6 = false →
      t.Append (some n) = (t, some (Error.errorf ("invalid IPv6 value, val=" ++ s)))) ∧
    (∀ e, netip.ParseAddr s = .error e → t.Append (some n) = (t, some (Error.parse e))) := by
  have hok : ∀ a, netip.ParseAddr s = .ok a → a.Is6 = true →
      (t.nullable = true →
        t.Append (some n)
          = ({ t with nullCol := { vals := t.nullCol.vals ++
                [{ Set := true, Value := { bytes := a.As16 } }] } }, none)) ∧
      (t.nullable = false →
        t.Append (some n)
          = ({ t with col := { vals := t.col.vals ++ [{ bytes := a.As16 }] } }, none)) := by
    intro a ha h6
    constructor
    · intro hb
      simp [ColIPv6.Append, hnull, hs, ha, h6, hb, proto.ColNullable.Append,
        proto.NewNullable, proto.ToIPv6]
    · intro hb
      simp [ColIPv6.Append, hnull, hs, ha, h6, hb, proto.ColIPv6.Append, proto.ToIPv6]
  have hfam : ∀ a, netip.ParseAddr s = .ok a → a.Is6 = false →
      t.Append (some n) = (t, some (Error.errorf ("invalid IPv6 value, val=" ++ s))) := by
    intro a ha h6
    simp [ColIPv6.Append, hnull, hs, ha, h6]
  have hparse : ∀ e, netip.ParseAddr s = .error e →
      t.Append (some n) = (t, some (Error.parse e)) := by
    intro e he
    simp [ColIPv6.Append, hnull, hs, he]
  refine ⟨?_, fun a ha h6 => ⟨As16_length a, As16_byte a, hok a ha h6⟩, hfam, hparse⟩
  constructor
  · intro hnone
    cases hp : netip.ParseAddr s with
    | error e =>
      rw [hparse e hp] at hnone
      cases hnone
    | ok a =>
      cases h6 : a.Is6
      · rw [hfam a hp h6] at hnone
        cases hnone
      · exact ⟨a, rfl, h6⟩
  · rintro ⟨a, ha, h6⟩
    cases hb : t.nullable
    · rw [(hok a ha h6).2 hb]
    · rw [(hok a ha h6).1 hb]

/-- Witness of C6: `"2001:db8::1"` succeeds with its 16 bytes appended,
`"203.0.113.5"` gets the family error. -/
theorem C6_ipv6_append_witness :
    (NewColIPv6 false).Append (some (stringNode "2001:db8::1"))
      = ({ col := { vals := [{ bytes := [32, 1, 13, 184, 0, 0, 0, 0, 0, 0, 0, 0, 0, 0, 0, 1] }] },
           nullCol := { vals := [] }, nullable := false }, none) ∧
    ((NewColIPv6 true).Append (some (stringNode "2001:db8::1"))).2 = none ∧
    (NewColIPv6 false).Append (some (stringNode "203.0.113.5"))
      = (NewColIPv6 false, some (Error.errorf "invalid IPv6 value, val=203.0.113.5")) :=
  ⟨((C6_ipv6_append (NewColIPv6 false) (stringNode "2001:db8::1") "2001:db8::1" rfl rfl).2.1
      { addr := { hi := 2306139568115548160, lo := 1 }, z := netip.zoneTag.z6noz }
      (by rfl) (by rfl)).2.2.2 rfl,
   (C6_ipv6_append (NewColIPv6 true) (stringNode "2001:db8::1") "2001:db8::1" rfl rfl).1.2
      ⟨{ addr := { hi := 2306139568115548160, lo := 1 }, z := netip.zoneTag.z6noz },
        by rfl, by rfl⟩,
   (C6_ipv6_append (NewColIPv6 false) (stringNode "203.0.113.5") "203.0.113.5" rfl rfl).2.2.1
      (netip.AddrFrom4 [203, 0, 113, 5]) (by rfl) (by rfl)⟩

/-- C7 as stated fails: the buffer keeps 32-bit unsigned second counts. For
the node value 4294967301 the call succeeds and the element appended is 5,
not the second 4294967301; for the node value -1 it is 4294967295. -/
theorem C7_second_out_of_range_counterexample :
    ColDateTime.Append (NewColDateTime { vals := [] }) (some (numberNode 4294967301))
      = ({ col := { vals := [5] } }, none) ∧
    ¬ (∃ d : proto.DateTime,
        (ColDateTime.Append (NewColDateTime { vals := [] })
          (some (numberNode 4294967301))).1.col.vals = [d] ∧ (d : Int) = 4294967301) ∧
    ColDateTime.Append (NewColDateTime { vals := [] }) (some (numberNode (-1)))
      = ({ col := { vals := [4294967295] } }, none) := by
  have h : ColDateTime.Append (NewColDateTime { vals := [] }) (some (numberNode 4294967301))
      = ({ col := { vals := [5] } }, none) := by decide
  refine ⟨h, ?_, by decide⟩
  rw [h]
  rintro ⟨d, hd, hval⟩
  simp only [List.cons.injEq, and_true] at hd
  rw [← hd] at hval
  revert hval
  decide

/-- C7, amended: `ColDateTime.Append` on a non-null node. If the node coerces
to the integer `v`, a value of the 64-bit range, the call returns no error,
the timestamp handed to the buffer is `time.Unix(v, 0)`, second `v` with
nanosecond component zero, and the buffer is the old buffer followed by one
new element, the 32-bit second count of that timestamp. For `0 ≤ v < 2^32`
that element is the Unix second `v`; for any other `v` it is `v` modulo 2^32,
but 0 for the second of the zero time. If the coercion fails with `e`, the
call returns `e` and the adapter is unchanged. -/
theorem C7_datetime_append (t : ColDateTime) (n : StrictNode) (hnull : n.IsNull = false) :
    (∀ v, n.AsInt = .ok v → -9223372036854775808 ≤ v → v < 9223372036854775808 →
      time.Unix v 0 = { sec := v, nsec := 0 } ∧
      t.Append (some n)
        = ({ col := { vals := t.col.vals ++ [proto.ToDateTime (time.Unix v 0)] } }, none) ∧
      (t.Append (some n)).1.col.vals.length = t.col.vals.length + 1 ∧
      (t.Append (some n)).1.col.vals.take t.col.vals.length = t.col.vals ∧
      (0 ≤ v → v < 4294967296 →
        t.Append (some n) = ({ col := { vals := t.col.vals ++ [v.toNat] } }, none) ∧
        (v.toNat : Int) = v) ∧
      (v ≠ -62135596800 →
        proto.ToDateTime (time.Unix v 0) = (v % 4294967296).toNat) ∧
      (v = -62135596800 → proto.ToDateTime (time.Unix v 0) = 0)) ∧
    (∀ e, n.AsInt = .error e → t.Append (some n) = (t, some e)) := by
  constructor
  · intro v hv _ _
    have hu : time.Unix v 0 = { sec := v, nsec := 0 } := by simp [time.Unix]
    have h : t.Append (some n)
        = ({ col := { vals := t.col.vals ++ [proto.ToDateTime (time.Unix v 0)] } }, none) := by
      simp [ColDateTime.Append, hnull, hv, proto.ColDateTime.Append]
    have hmod : v ≠ -62135596800 →
        proto.ToDateTime (time.Unix v 0) = (v % 4294967296).toNat := by
      intro hne
      simp [hu, proto.ToDateTime, time.Time.IsZero, time.Time.Unix, hne]
    refine ⟨hu, h, ?_, ?_, ?_, hmod, ?_⟩
    · rw [h]
      simp
    · rw [h]
      simp
    · intro h0 h1
      have hm : v % 4294967296 = v := Int.emod_eq_of_lt h0 h1
      constructor
      · rw [h, hmod (by omega), hm]
      · exact Int.toNat_of_nonneg h0
    · intro hz
      rw [hu, hz]
      decide
  · intro e he
    simp [ColDateTime.Append, hnull, he]

/-- Witness of the amended C7: the integer 1700000000 is appended as the
second count 1700000000, after the element already there, and a string node
is refused with its coercion error. -/
theorem C7_datetime_append_witness :
    ColDateTime.Append (NewColDateTime { vals := [5] }) (some (numberNode 1700000000))
      = ({ col := { vals := [5] ++ [(1700000000 : Int).toNat] } }, none) ∧
    ((1700000000 : Int).toNat : Int) = 1700000000 ∧
    ColDateTime.Append (NewColDateTime { vals := [] }) (some (stringNode "x"))
      = (NewColDateTime { vals := [] }, some (Error.coercion "node isn't a number")) :=
  ⟨(((C7_datetime_append (NewColDateTime { vals := [5] })
      (numberNode 1700000000) rfl).1 1700000000 rfl (by decide) (by decide)).2.2.2.2.1
        (by decide) (by decide)).1,
   (((C7_datetime_append (NewColDateTime { vals := [5] })
      (numberNode 1700000000) rfl).1 1700000000 rfl (by decide) (by decide)).2.2.2.2.1
        (by decide) (by decide)).2,
   (C7_datetime_append (NewColDateTime { vals := [] }) (stringNode "x") rfl).2 _ rfl⟩

theorem wrapInt64_of_fits (x : Int) (h1 : -9223372036854775808 ≤ x)
    (h2 : x < 9223372036854775808) : wrapInt64 x = x := by
  unfold wrapInt64
  omega

theorem tdiv_billion (a : Int) :
    Int.tdiv a 1000000000
      = if 0 ≤ a then a / 1000000000 else -((-a) / 1000000000) := by
  split
  · next h => exact Int.tdiv_eq_ediv h (by decide)
  · next h =>
    have h1 : Int.tdiv (-(-a)) 1000000000 = -Int.tdiv (-a) 1000000000 := Int.neg_tdiv _ _
    rw [neg_neg] at h1
    rw [h1, Int.tdiv_eq_ediv (by omega) (by decide)]

theorem tmod_billion (a : Int) :
    Int.tmod a 1000000000 = a - 1000000000 * Int.tdiv a 1000000000 := by
  have h := Int.tdiv_add_tmod a 1000000000
  omega

theorem Unix_of_small (q r : Int) (hq1 : -9223372036854775808 < q)
    (hq2 : q < 9223372036854775808) (hr1 : -1000000000 < r) (hr2 : r < 1000000000) :
    time.Unix q r
      = if r < 0 then { sec := q - 1, nsec := r + 1000000000 } else { sec := q, nsec := r } := by
  by_cases hneg : r < 0
  · have hn : Int.tdiv r 1000000000 = 0 := by
      rw [tdiv_billion]
      simp only [if_neg (not_le.mpr hneg)]
      omega
    simp only [time.Unix, hn, if_pos hneg, true_or, if_true]
    simp only [add_zero, zero_mul]
    rw [wrapInt64_of_fits 0 (by decide) (by decide), sub_zero,
      wrapInt64_of_fits q (by omega) (by omega), wrapInt64_of_fits r (by omega) (by omega),
      wrapInt64_of_fits (q - 1) (by omega) (by omega),
      wrapInt64_of_fits (r + 1000000000) (by omega) (by omega)]
    simp [hneg]
  · have h : ¬ (r < 0 ∨ r ≥ 1000000000) := by omega
    simp only [time.Unix, if_neg h, if_neg hneg]

theorem Unix_of_nanos (a : Int) (hlo : -9223372036854775808 ≤ a)
    (hhi : a < 9223372036854775808) :
    (time.Unix (Int.tdiv a 1000000000) (Int.tmod a 1000000000)).sec * 1000000000
        + (time.Unix (Int.tdiv a 1000000000) (Int.tmod a 1000000000)).nsec = a ∧
    (time.Unix (Int.tdiv a 1000000000) (Int.tmod a 1000000000)).sec > -9223372038 := by
  have hq := tdiv_billion a
  have hr := tmod_billion a
  generalize Int.tdiv a 1000000000 = q at hq hr ⊢
  generalize Int.tmod a 1000000000 = r at hr ⊢
  have hfacts : q * 1000000000 + r = a ∧ -1000000000 < r ∧ r < 1000000000 ∧
      (0 ≤ a → 0 ≤ q) ∧ (a < 0 → q ≤ 0) := by
    split at hq <;> omega
  obtain ⟨h1, h2, h3, h4, h5⟩ := hfacts
  rw [Unix_of_small q r (by omega) (by omega) h2 h3]
  split <;> simp <;> omega

theorem ToDateTime64_of_nanos (a : Int) (p : Nat) (hlo : -9223372036854775808 ≤ a)
    (hhi : a < 9223372036854775808) :
    proto.ToDateTime64 (time.Unix (Int.tdiv a 1000000000) (Int.tmod a 1000000000)) p
      = Int.tdiv a (proto.PrecisionScale p) := by
  obtain ⟨h1, h2⟩ := Unix_of_nanos a hlo hhi
  generalize time.Unix (Int.tdiv a 1000000000) (Int.tmod a 1000000000) = u at h1 h2
  have hz : u.IsZero = false := by
    have hne : u.sec ≠ -62135596800 := by omega
    simp [time.Time.IsZero, hne]
  have hn : u.UnixNano = a := by
    unfold time.Time.UnixNano
    rw [h1]
    exact wrapInt64_of_fits a hlo hhi
  simp [proto.ToDateTime64, hz, hn]

theorem ColDateTime64_Append_set (t : ColDateTime64) (n : StrictNode) (v : Int)
    (hnull : n.IsNull = false) (hv : n.AsInt64 = .ok v) (hset : t.col.PrecisionSet = true) :
    t.Append (some n)
      = ({ t with col := { t.col with vals := t.col.vals ++
            [proto.ToDateTime64
              (time.Unix (Int.tdiv (wrapInt64 (v * t.scale)) 1000000000)
                (Int.tmod (wrapInt64 (v * t.scale)) 1000000000)) t.col.Precision] } },
          none) := by
  simp [ColDateTime64.Append, hnull, hv, hset, proto.ColDateTime64.Append]

theorem ColDateTime64_Append_unset (t : ColDateTime64) (n : StrictNode) (v : Int)
    (hnull : n.IsNull = false) (hv : n.AsInt64 = .ok v) (hset : t.col.PrecisionSet = false) :
    t.Append (some n) = (t, some (Error.panic "DateTime64: no precision set")) := by
  simp [ColDateTime64.Append, hnull, hv, hset, proto.ColDateTime64.Append]

/-- C9 as stated fails: with scale 1000000 and the node value
1700000000123456, on a millisecond column (precision 3), `Append` succeeds,
but the single element it appends, 2899545342177 milliseconds, does not have
the whole-seconds component 1700000123, and neither has the timestamp handed
to the buffer. -/
theorem C9_seconds_counterexample :
    ¬ ((ColDateTime64.Append
          (NewColDateTime64 { vals := [], Precision := 3, PrecisionSet := true } 1000000)
          (some (numberNode 1700000000123456))).2 = none ∧
        ∃ d : proto.DateTime64,
          (ColDateTime64.Append
            (NewColDateTime64 { vals := [], Precision := 3, PrecisionSet := true } 1000000)
            (some (numberNode 1700000000123456))).1.col.vals = [d] ∧
          Int.tdiv d 1000 = 1700000123) ∧
    (time.Unix (Int.tdiv (wrapInt64 (1700000000123456 * 1000000)) 1000000000)
        (Int.tmod (wrapInt64 (1700000000123456 * 1000000)) 1000000000)).sec ≠ 1700000123 := by
  have h : ColDateTime64.Append
      (NewColDateTime64 { vals := [], Precision := 3, PrecisionSet := true } 1000000)
      (some (numberNode 1700000000123456))
        = ({ col := { vals := [2899545342177], Precision := 3, PrecisionSet := true },
             scale := 1000000 }, none) := by
    decide
  refine ⟨?_, by decide⟩
  rw [h]
  rintro ⟨_, d, hd, hsec⟩
  simp only [List.cons.injEq, and_true] at hd
  rw [← hd] at hsec
  revert hsec
  decide

/-- C9, amended: with scale 1000000, over a column whose precision `p ≤ 9`
has been set, and a non-null node whose 64-bit integer value is
1700000000123456, `Append` succeeds and appends one timestamp whose
whole-seconds component is 2899545342: the product 1700000000123456 * 1000000
reduced into the signed 64-bit range is 2899545342177251328, the seconds are
that count divided by 1e9, truncated, and the element stored is that count
divided by `10^(9 - p)`, whose whole seconds are again 2899545342. -/
theorem C9_datetime64_example (t : ColDateTime64) (n : StrictNode)
    (hscale : t.scale = 1000000) (hnull : n.IsNull = false)
    (hv : n.AsInt64 = .ok 1700000000123456)
    (hset : t.col.PrecisionSet = true) (hp : t.col.Precision ≤ 9) :
    t.Append (some n)
      = ({ t with col := { t.col with vals := t.col.vals ++
            [Int.tdiv 2899545342177251328 (10 ^ (9 - t.col.Precision))] } }, none) ∧
    Int.tdiv (Int.tdiv 2899545342177251328 (10 ^ (9 - t.col.Precision)))
        (10 ^ t.col.Precision) = 2899545342 ∧
    wrapInt64 (1700000000123456 * 1000000) = 2899545342177251328 ∧
    Int.tdiv 2899545342177251328 1000000000 = 2899545342 ∧
    (time.Unix (Int.tdiv 2899545342177251328 1000000000)
      (Int.tmod 2899545342177251328 1000000000)).sec = 2899545342 := by
  have hw : wrapInt64 (1700000000123456 * 1000000) = 2899545342177251328 := by decide
  have hw1 : wrapInt64 (1700000000123456 * t.scale) = 2899545342177251328 := by
    rw [hscale]
    exact hw
  have happ := ColDateTime64_Append_set t n 1700000000123456 hnull hv hset
  rw [hw1,
    ToDateTime64_of_nanos 2899545342177251328 t.col.Precision (by decide) (by decide)] at happ
  refine ⟨happ, ?_, hw, by decide, by decide⟩
  generalize t.col.Precision = p at hp
  interval_cases p <;> decide

/-- Witness of the amended C9, on a new adapter over a millisecond column and
a number node: the element stored is 2899545342177 milliseconds. -/
theorem C9_datetime64_example_witness :
    ColDateTime64.Append
        (NewColDateTime64 { vals := [], Precision := 3, PrecisionSet := true } 1000000)
        (some (numberNode 1700000000123456))
      = ({ col := { vals := [] ++ [Int.tdiv 2899545342177251328 (10 ^ (9 - 3))],
                    Precision := 3, PrecisionSet := true }, scale := 1000000 }, none) ∧
    Int.tdiv (Int.tdiv 2899545342177251328 (10 ^ (9 - 3))) (10 ^ 3) = 2899545342 :=
  ⟨(C9_datetime64_example
      (NewColDateTime64 { vals := [], Precision := 3, PrecisionSet := true } 1000000)
      (numberNode 1700000000123456) rfl rfl rfl rfl (by decide)).1,
   (C9_datetime64_example
      (NewColDateTime64 { vals := [], Precision := 3, PrecisionSet := true } 1000000)
      (numberNode 1700000000123456) rfl rfl rfl rfl (by decide)).2.1⟩

/-- C10: `ColEnum8.Append` and `ColEnum16.Append` on a non-null node. If the
coercion to string fails with `e`, the call returns `e` and the adapter is
unchanged; if the node coerces to the string `s`, the call succeeds and the
buffer is the old buffer followed by `s`, for every string `s`: no enum label
set or width takes part in the result. -/
theorem C10_enum_append (n : StrictNode) (hnull : n.IsNull = false) :
    (∀ (t : ColEnum8) (e : Error), n.AsString = .error e → t.Append (some n) = (t, some e)) ∧
    (∀ (t : ColEnum16) (e : Error), n.AsString = .error e → t.Append (some n) = (t, some e)) ∧
    (∀ (t : ColEnum8) (s : String), n.AsString = .ok s →
      t.Append (some n) = ({ col := { vals := t.col.vals ++ [s] } }, none)) ∧
    (∀ (t : ColEnum16) (s : String), n.AsString = .ok s →
      t.Append (some n) = ({ col := { vals := t.col.vals ++ [s] } }, none)) := by
  refine ⟨?_, ?_, ?_, ?_⟩
  · intro t e he
    simp [ColEnum8.Append, hnull, he]
  · intro t e he
    simp [ColEnum16.Append, hnull, he]
  · intro t s hs
    simp [ColEnum8.Append, hnull, hs, proto.ColEnum.Append]
  · intro t s hs
    simp [ColEnum16.Append, hnull, hs, proto.ColEnum.Append]

/-- Witness of C10: a number node is refused with the coercion error, and a
string that no enum declares, here the empty string after `"a"`, is
appended. -/
theorem C10_enum_append_witness :
    ColEnum8.Append { col := { vals := ["a"] } } (some (numberNode 3))
      = ({ col := { vals := ["a"] } }, some (Error.coercion "node isn't a string")) ∧
    ColEnum16.Append { col := { vals := ["a"] } } (some (numberNode 3))
      = ({ col := { vals := ["a"] } }, some (Error.coercion "node isn't a string")) ∧
    ColEnum8.Append { col := { vals := ["a"] } } (some (stringNode ""))
      = ({ col := { vals := ["a"] ++ [""] } }, none) ∧
    ColEnum16.Append { col := { vals := ["a"] } } (some (stringNode "no such label"))
      = ({ col := { vals := ["a"] ++ ["no such label"] } }, none) :=
  ⟨(C10_enum_append (numberNode 3) rfl).1 _ _ rfl,
   (C10_enum_append (numberNode 3) rfl).2.1 _ _ rfl,
   (C10_enum_append (stringNode "") rfl).2.2.1 _ _ rfl,
   (C10_enum_append (stringNode "no such label") rfl).2.2.2 _ _ rfl⟩

/-- C11: `ColEnum8.Append` and `ColEnum16.Append` are the same function of the
wrapped buffer and the node: for every buffer contents and every node (nil,
null, string or not), both return the same error or success and leave the
wrapped buffer in the same final state. -/
theorem C11_enum_widths_agree (col : proto.ColEnum) (node : Option StrictNode) :
    (ColEnum8.Append { col := col } node).2 = (ColEnum16.Append { col := col } node).2 ∧
    (ColEnum8.Append { col := col } node).1.col
      = (ColEnum16.Append { col := col } node).1.col := by
  rcases node with _ | n
  · exact ⟨rfl, rfl⟩
  · cases hn : n.IsNull
    · cases hs : n.AsString with
      | error e => simp [ColEnum8.Append, ColEnum16.Append, hn, hs]
      | ok v => simp [ColEnum8.Append, ColEnum16.Append, hn, hs]
    · simp [ColEnum8.Append, ColEnum16.Append, hn]

theorem ColDateTime64_Append_scale (t : ColDateTime64) (node : Option StrictNode) :
    (t.Append node).1.scale = t.scale := by
  rcases node with _ | n
  · rfl
  · cases hn : n.IsNull
    · cases hv : n.AsInt64 with
      | error e => simp [ColDateTime64.Append, hn, hv]
      | ok v =>
        cases hset : t.col.PrecisionSet
        · rw [ColDateTime64_Append_unset t n v hn hv hset]
        · rw [ColDateTime64_Append_set t n v hn hv hset]
    · simp [ColDateTime64.Append, hn]

theorem ColDateTime64_AppendAll_scale (nodes : List (Option StrictNode)) (t : ColDateTime64) :
    (t.AppendAll nodes).scale = t.scale := by
  induction nodes generalizing t with
  | nil => rfl
  | cons node rest ih =>
    simp only [ColDateTime64.AppendAll]
    rw [ih, ColDateTime64_Append_scale]

/-- C13: the configuration given at construction does not change under
`Append`. For every state, node and outcome, `ColDateTime64.Append` leaves
`scale` as it was and `ColIPv4.Append` / `ColIPv6.Append` leave `nullable` as
it was; hence after one call, or any run of calls, on a new adapter the scale
is the value given to `NewColDateTime64` and the flag the value given to
`NewColIPv4` / `NewColIPv6`. -/
theorem C13_configuration_immutable (node : Option StrictNode)
    (nodes : List (Option StrictNode)) :
    (∀ t : ColDateTime64, (t.Append node).1.scale = t.scale) ∧
    (∀ t : ColIPv4, (t.Append node).1.nullable = t.nullable) ∧
    (∀ t : ColIPv6, (t.Append node).1.nullable = t.nullable) ∧
    (∀ (col : proto.ColDateTime64) (scale : Int),
      ((NewColDateTime64 col scale).Append node).1.scale = scale ∧
      ((NewColDateTime64 col scale).AppendAll nodes).scale = scale) ∧
    (∀ nullable : Bool,
      ((NewColIPv4 nullable).Append node).1.nullable = nullable ∧
      ((NewColIPv4 nullable).AppendAll nodes).nullable = nullable ∧
      ((NewColIPv6 nullable).Append node).1.nullable = nullable ∧
      ((NewColIPv6 nullable).AppendAll nodes).nullable = nullable) := by
  refine ⟨fun t => ColDateTime64_Append_scale t node, fun t => ColIPv4_Append_nullable t node,
    fun t => ColIPv6_Append_nullable t node, ?_, ?_⟩
  · intro col scale
    exact ⟨ColDateTime64_Append_scale _ node, ColDateTime64_AppendAll_scale nodes _⟩
  · intro nullable
    exact ⟨ColIPv4_Append_nullable _ node, (ColIPv4_AppendAll_frame nodes _).1,
      ColIPv6_Append_nullable _ node, (ColIPv6_AppendAll_frame nodes _).1⟩

/-- C14: the constructor of the 16-bit enum variant returns the 8-bit adapter
type. For every enum buffer `col`, `NewColEnum16 col` is a `ColEnum8` that
wraps `col`, equal to `NewColEnum8 col`; its type leaves no way for it to be
a `ColEnum16`. -/
theorem C14_enum16_constructor (col : proto.ColEnum) :
    NewColEnum16 col = NewColEnum8 col ∧
    (NewColEnum16 col).col = col ∧
    NewColEnum16 col = ColEnum8.mk col :=
  ⟨rfl, rfl, rfl⟩

/-- C15: wording of the family error. For every non-null node whose string
`s` parses to an address that is not IPv4, `ColIPv4.Append` returns the error
made by `fmt.Errorf` whose message is exactly `"invalid IPv6 value, val="`
followed by `s`; and for every string `s` that parses to an address that is
not IPv6, `ColIPv6.Append` returns the error with that same text, so the
IPv4 adapter says "invalid IPv6 value" word for word as the IPv6 adapter. -/
theorem C15_family_error_wording (n : StrictNode) (s : String) (a : netip.Addr)
    (hnull : n.IsNull = false) (hs : n.AsString = .ok s) (ha : netip.ParseAddr s = .ok a) :
    (a.Is4 = false → ∀ t : ColIPv4,
      t.Append (some n) = (t, some (Error.errorf ("invalid IPv6 value, val=" ++ s)))) ∧
    (a.Is6 = false → ∀ t : ColIPv6,
      t.Append (some n) = (t, some (Error.errorf ("invalid IPv6 value, val=" ++ s)))) := by
  constructor
  · intro h4 t
    simp [ColIPv4.Append, hnull, hs, ha, h4]
  · intro h6 t
    simp [ColIPv6.Append, hnull, hs, ha, h6]

/-- Witness of C15: the IPv4 adapter on `"::1"` and the IPv6 adapter on
`"10.0.0.1"` return the same wording. -/
theorem C15_family_error_wording_witness :
    (NewColIPv4 true).Append (some (stringNode "::1"))
      = (NewColIPv4 true, some (Error.errorf "invalid IPv6 value, val=::1")) ∧
    (NewColIPv6 true).Append (some (stringNode "10.0.0.1"))
      = (NewColIPv6 true, some (Error.errorf "invalid IPv6 value, val=10.0.0.1")) :=
  ⟨(C15_family_error_wording (stringNode "::1") "::1"
      { addr := { hi := 0, lo := 1 }, z := netip.zoneTag.z6noz } rfl rfl (by rfl)).1
      (by rfl) _,
   (C15_family_error_wording (stringNode "10.0.0.1") "10.0.0.1"
      (netip.AddrFrom4 [10, 0, 0, 1]) rfl rfl (by rfl)).2 (by rfl) _⟩

/-- C17: the flag `nullable` bears only on null handling and on the buffer
that takes the value. For every non-null node, `ColIPv4.Append` (and
`ColIPv6.Append`) returns the same result, success or the same error, on an
adapter with `nullable = true` as on one with `nullable = false`; on success
the nullable adapter appends to its nullable buffer the set wrapper of the
very value that the other appends to its non-nullable buffer; on an error
neither adapter changes, so an invalid non-null value never becomes a null
entry. -/
theorem C17_nullable_only_routes (n : StrictNode) (hnull : n.IsNull = false) :
    (∀ t1 t2 : ColIPv4, t1.nullable = true → t2.nullable = false →
      (t1.Append (some n)).2 = (t2.Append (some n)).2 ∧
      ((t1.Append (some n)).2 = none →
        ∃ v : proto.IPv4,
          (t1.Append (some n)).1
            = { t1 with nullCol := { vals := t1.nullCol.vals ++ [{ Set := true, Value := v }] } } ∧
          (t2.Append (some n)).1 = { t2 with col := { vals := t2.col.vals ++ [v] } }) ∧
      ((t1.Append (some n)).2 ≠ none →
        (t1.Append (some n)).1 = t1 ∧ (t2.Append (some n)).1 = t2)) ∧
    (∀ t1 t2 : ColIPv6, t1.nullable = true → t2.nullable = false →
      (t1.Append (some n)).2 = (t2.Append (some n)).2 ∧
      ((t1.Append (some n)).2 = none →
        ∃ v : proto.IPv6,
          (t1.Append (some n)).1
            = { t1 with nullCol := { vals := t1.nullCol.vals ++ [{ Set := true, Value := v }] } } ∧
          (t2.Append (some n)).1 = { t2 with col := { vals := t2.col.vals ++ [v] } }) ∧
      ((t1.Append (some n)).2 ≠ none →
        (t1.Append (some n)).1 = t1 ∧ (t2.Append (some n)).1 = t2)) := by
  constructor
  · intro t1 t2 h1 h2
    cases hs : n.AsString with
    | error e => simp [ColIPv4.Append, hnull, hs]
    | ok s =>
      cases hp : netip.ParseAddr s with
      | error e => simp [ColIPv4.Append, hnull, hs, hp]
      | ok a =>
        cases h4 : a.Is4
        · simp [ColIPv4.Append, hnull, hs, hp, h4]
        · have hv := ToIPv4_of_Is4 a h4
          simp [ColIPv4.Append, hnull, hs, hp, h4, hv, h1, h2, proto.ColNullable.Append,
            proto.ColIPv4.Append, proto.NewNullable]
  · intro t1 t2 h1 h2
    cases hs : n.AsString with
    | error e => simp [ColIPv6.Append, hnull, hs]
    | ok s =>
      cases hp : netip.ParseAddr s with
      | error e => simp [ColIPv6.Append, hnull, hs, hp]
      | ok a =>
        cases h6 : a.Is6
        · simp [ColIPv6.Append, hnull, hs, hp, h6]
        · simp [ColIPv6.Append, hnull, hs, hp, h6, h1, h2, proto.ColNullable.Append,
            proto.ColIPv6.Append, proto.NewNullable]

/-- Witness of C17: `"192.0.2.1"` goes to the nullable buffer of one adapter
as the set wrapper of the value that goes to the non-nullable buffer of the
other, and `"bad"` is refused by both with the same error and no entry. -/
theorem C17_nullable_only_routes_witness :
    ((NewColIPv4 true).Append (some (stringNode "192.0.2.1"))).2
      = ((NewColIPv4 false).Append (some (stringNode "192.0.2.1"))).2 ∧
    ((NewColIPv4 true).Append (some (stringNode "192.0.2.1"))).1.nullCol.vals
      = [{ Set := true, Value := 3221225985 }] ∧
    ((NewColIPv4 false).Append (some (stringNode "192.0.2.1"))).1.col.vals = [3221225985] ∧
    ((NewColIPv6 true).Append (some (stringNode "bad"))).2
      = ((NewColIPv6 false).Append (some (stringNode "bad"))).2 ∧
    ((NewColIPv6 true).Append (some (stringNode "bad"))).1 = NewColIPv6 true :=
  ⟨((C17_nullable_only_routes (stringNode "192.0.2.1") rfl).1
      (NewColIPv4 true) (NewColIPv4 false) rfl rfl).1,
   by decide, by decide,
   ((C17_nullable_only_routes (stringNode "bad") rfl).2
      (NewColIPv6 true) (NewColIPv6 false) rfl rfl).1,
   (((C17_nullable_only_routes (stringNode "bad") rfl).2
      (NewColIPv6 true) (NewColIPv6 false) rfl rfl).2.2 (by decide)).1⟩

theorem WithZone_Is6 (a : netip.Addr) (zone : String) (h : a.Is6 = true) :
    (a.WithZone zone).Is6 = true ∧ (a.WithZone zone).Is4 = false := by
  unfold netip.Addr.WithZone
  simp only [h, Bool.not_true, Bool.false_eq_true, if_false]
  split <;> simp [netip.Addr.Is6, netip.Addr.Is4]

theorem parseIPv4_family (s : String) (a : netip.Addr) (h : netip.parseIPv4 s = .ok a) :
    a.Is4 = true ∧ a.Is6 = false := by
  unfold netip.parseIPv4 at h
  split at h
  · cases h
  · cases h
    exact ⟨rfl, rfl⟩

theorem parseIPv6_family (s : String) (a : netip.Addr) (h : netip.parseIPv6 s = .ok a) :
    a.Is6 = true ∧ a.Is4 = false := by
  unfold netip.parseIPv6 at h
  simp only at h
  repeat' split at h
  all_goals first
    | (cases h; exact WithZone_Is6 _ _ rfl)
    | cases h

theorem ParseAddrScan_family (s : String) (l : List Char) (a : netip.Addr)
    (h : netip.ParseAddrScan s l = .ok a) :
    (a.Is4 = true ∧ a.Is6 = false) ∨ (a.Is6 = true ∧ a.Is4 = false) := by
  induction l with
  | nil => cases h
  | cons c cs ih =>
    unfold netip.ParseAddrScan at h
    split at h
    · exact Or.inl (parseIPv4_family s a h)
    · split at h
      · exact Or.inr (parseIPv6_family s a h)
      · split at h
        · cases h
        · exact ih h

/-- C18: the two IP adapters split the valid addresses between them. For
every non-null node whose string `s` parses as an IP address, exactly one of
`ColIPv4.Append` and `ColIPv6.Append` succeeds and the other returns the
family error, whatever the states and flags of the two adapters; for a
string that does not parse, both return the parse error. -/
theorem C18_adapters_partition (n : StrictNode) (s : String)
    (hnull : n.IsNull = false) (hs : n.AsString = .ok s) :
    (∀ a, netip.ParseAddr s = .ok a → ∀ (t4 : ColIPv4) (t6 : ColIPv6),
      ((t4.Append (some n)).2 = none ∧
        t6.Append (some n) = (t6, some (Error.errorf ("invalid IPv6 value, val=" ++ s)))) ∨
      (t4.Append (some n) = (t4, some (Error.errorf ("invalid IPv6 value, val=" ++ s))) ∧
        (t6.Append (some n)).2 = none)) ∧
    (∀ e, netip.ParseAddr s = .error e → ∀ (t4 : ColIPv4) (t6 : ColIPv6),
      t4.Append (some n) = (t4, some (Error.parse e)) ∧
      t6.Append (some n) = (t6, some (Error.parse e))) := by
  constructor
  · intro a ha t4 t6
    rcases ParseAddrScan_family s s.data a ha with ⟨h4, h6⟩ | ⟨h6, h4⟩
    · left
      have hv := ToIPv4_of_Is4 a h4
      constructor
      · cases hb : t4.nullable <;> simp [ColIPv4.Append, hnull, hs, ha, h4, hv, hb]
      · simp [ColIPv6.Append, hnull, hs, ha, h6]
    · right
      constructor
      · simp [ColIPv4.Append, hnull, hs, ha, h4]
      · cases hb : t6.nullable <;> simp [ColIPv6.Append, hnull, hs, ha, h6, hb]
  · intro e he t4 t6
    constructor
    · simp [ColIPv4.Append, hnull, hs, he]
    · simp [ColIPv6.Append, hnull, hs, he]

/-- Witness of C18: the IPv4-mapped literal `"::ffff:203.0.113.5"` is refused
by the IPv4 adapter with the family error and taken by the IPv6 adapter, which
appends its 16 bytes; `"not-an-ip"` is refused by both with the parse
error. -/
theorem C18_adapters_partition_witness :
    ((NewColIPv4 false).Append (some (stringNode "::ffff:203.0.113.5"))
        = (NewColIPv4 false, some (Error.errorf "invalid IPv6 value, val=::ffff:203.0.113.5")) ∧
      ((NewColIPv6 false).Append (some (stringNode "::ffff:203.0.113.5"))).2 = none) ∧
    ((NewColIPv6 false).Append (some (stringNode "::ffff:203.0.113.5"))).1.col.vals
      = [{ bytes := [0, 0, 0, 0, 0, 0, 0, 0, 0, 0, 255, 255, 203, 0, 113, 5] }] ∧
    ((NewColIPv4 true).Append (some (stringNode "not-an-ip"))
        = (NewColIPv4 true,
           some (Error.parse
             { input := "not-an-ip", msg := "unable to parse IP", rest := "" })) ∧
      (NewColIPv6 true).Append (some (stringNode "not-an-ip"))
        = (NewColIPv6 true,
           some (Error.parse
             { input := "not-an-ip", msg := "unable to parse IP", rest := "" }))) :=
  ⟨((C18_adapters_partition (stringNode "::ffff:203.0.113.5") "::ffff:203.0.113.5" rfl rfl).1
      { addr := { hi := 0, lo := 281474087547141 }, z := netip.zoneTag.z6noz } (by rfl)
      (NewColIPv4 false) (NewColIPv6 false)).resolve_left
        (fun h => absurd h.1 (by decide)),
   by decide,
   (C18_adapters_partition (stringNode "not-an-ip") "not-an-ip" rfl rfl).2 _ (by rfl)
      (NewColIPv4 true) (NewColIPv6 true)⟩

theorem AppendsInOrder_of_shape {S V C : Type}
    (step : S → Option StrictNode → S × Option Error)
    (run : S → List (Option StrictNode) → S) (buf : S → List V) (fresh : S → S)
    (live : S → Bool) (cfg : S → C)
    (hnil : ∀ t, run t [] = t)
    (hcons : ∀ t node rest, run t (node :: rest) = run (step t node).1 rest)
    (hfresh : ∀ t, cfg (fresh t) = cfg t ∧ buf (fresh t) = [])
    (hshape : ∀ (c : C) (node : Option StrictNode), ∃ (e : Option Error) (vs : List V),
        (e ≠ none → vs = []) ∧
        (∀ t, cfg t = c →
          (step t node).2 = e ∧ buf (step t node).1 = buf t ++ vs ∧
          cfg (step t node).1 = c ∧ (e ≠ none → (step t node).1 = t) ∧
          (e = none → live t = true → vs.length = 1))) :
    AppendsInOrder step run buf fresh live := by
  have hcfg : ∀ (nodes : List (Option StrictNode)) (t : S), cfg (run t nodes) = cfg t := by
    intro nodes
    induction nodes with
    | nil =>
      intro t
      rw [hnil]
    | cons node rest ih =>
      intro t
      obtain ⟨e, vs, _, h⟩ := hshape (cfg t) node
      rw [hcons, ih, (h t rfl).2.2.1]
  have hout : ∀ (t t1 : S) (node : Option StrictNode), cfg t = cfg t1 →
      buf (step (fresh t) node).1 = buf (step (fresh t1) node).1 := by
    intro t t1 node hc
    obtain ⟨e, vs, _, h⟩ := hshape (cfg t) node
    rw [(h (fresh t) (hfresh t).1).2.1, (h (fresh t1) ((hfresh t1).1.trans hc.symm)).2.1,
      (hfresh t).2, (hfresh t1).2]
  have hfilter : ∀ (nodes : List (Option StrictNode)) (t t0 : S), cfg t = cfg t0 →
      run t (nodes.filter (fun node => (step t0 node).2.isNone)) = run t nodes := by
    intro nodes
    induction nodes with
    | nil =>
      intro t t0 _
      rfl
    | cons node rest ih =>
      intro t t0 hc
      obtain ⟨e, vs, _, h⟩ := hshape (cfg t) node
      have h0 := (h t0 hc.symm).1
      have h1 := h t rfl
      cases he : e with
      | none =>
        have hk : (step t0 node).2.isNone = true := by rw [h0, he]; rfl
        have hfc : List.filter (fun node => (step t0 node).2.isNone) (node :: rest)
            = node :: List.filter (fun node => (step t0 node).2.isNone) rest :=
          List.filter_cons_of_pos hk
        rw [hfc, hcons, hcons]
        exact ih _ _ (h1.2.2.1.trans hc)
      | some err =>
        have hk : ¬ (step t0 node).2.isNone = true := by rw [h0, he]; simp
        have hfc : List.filter (fun node => (step t0 node).2.isNone) (node :: rest)
            = List.filter (fun node => (step t0 node).2.isNone) rest :=
          List.filter_cons_of_neg hk
        rw [hfc, hcons, h1.2.2.2.1 (by rw [he]; simp)]
        exact ih _ _ hc
  intro t nodes
  refine ⟨?_, ?_, ?_, ?_, hfilter nodes t t rfl⟩
  · intro pre node
    obtain ⟨e, vs, _, h⟩ := hshape (cfg t) node
    rw [(h (run t pre) (hcfg pre t)).1, (h (fresh t) (hfresh t).1).1]
  · intro node hne
    obtain ⟨e, vs, hvs, h⟩ := hshape (cfg t) node
    have hf := h (fresh t) (hfresh t).1
    rw [hf.1] at hne
    rw [hf.2.1, (hfresh t).2, hvs hne]
    rfl
  · intro node hok hl
    obtain ⟨e, vs, hvs, h⟩ := hshape (cfg t) node
    have hf := h (fresh t) (hfresh t).1
    rw [hf.1] at hok
    rw [hf.2.1, (hfresh t).2, List.nil_append]
    exact (h t rfl).2.2.2.2 hok hl
  · induction nodes generalizing t with
    | nil => rw [hnil]; simp
    | cons node rest ih =>
      obtain ⟨e, vs, _, h⟩ := hshape (cfg t) node
      have h1 := h t rfl
      have hf := h (fresh t) (hfresh t).1
      rw [hcons, ih (step t node).1, h1.2.1, List.flatMap_cons, hf.2.1, (hfresh t).2,
        List.nil_append, List.append_assoc]
      congr 2
      apply List.flatMap_congr
      intro m _
      exact hout _ _ m h1.2.2.1

theorem ColDateTime_shape (node : Option StrictNode) :
    ∃ (e : Option Error) (vs : List proto.DateTime),
      (e ≠ none → vs = []) ∧ (e = none → vs.length = 1) ∧
      ∀ t : ColDateTime, t.Append node = ({ col := { vals := t.col.vals ++ vs } }, e) := by
  rcases node with _ | n
  · exact ⟨some Error.ErrNodeIsNil, [], fun _ => rfl, by simp, fun t => by
      simp [ColDateTime.Append]⟩
  · cases hn : n.IsNull
    · cases hv : n.AsInt with
      | error err =>
        exact ⟨some err, [], fun _ => rfl, by simp, fun t => by
          simp [ColDateTime.Append, hn, hv]⟩
      | ok v =>
        exact ⟨none, [proto.ToDateTime (time.Unix v 0)], by simp, fun _ => rfl, fun t => by
          simp [ColDateTime.Append, hn, hv, proto.ColDateTime.Append]⟩
    · exact ⟨some Error.ErrNodeIsNil, [], fun _ => rfl, by simp, fun t => by
        simp [ColDateTime.Append, hn]⟩

theorem ColDateTime64_shape (scale : Int) (p : Nat) (pset : Bool) (node : Option StrictNode) :
    ∃ (e : Option Error) (vs : List proto.DateTime64),
      (e ≠ none → vs = []) ∧ (e = none → vs.length = 1) ∧
      ∀ t : ColDateTime64, t.scale = scale → t.col.Precision = p → t.col.PrecisionSet = pset →
        t.Append node
          = ({ col := { vals := t.col.vals ++ vs, Precision := p, PrecisionSet := pset },
               scale := scale }, e) := by
  have herr : ∀ err : Error, (∀ t : ColDateTime64, t.Append node = (t, some err)) →
      ∃ (e : Option Error) (vs : List proto.DateTime64),
      (e ≠ none → vs = []) ∧ (e = none → vs.length = 1) ∧
      ∀ t : ColDateTime64, t.scale = scale → t.col.Precision = p → t.col.PrecisionSet = pset →
        t.Append node
          = ({ col := { vals := t.col.vals ++ vs, Precision := p, PrecisionSet := pset },
               scale := scale }, e) := by
    intro err h
    exact ⟨some err, [], fun _ => rfl, by simp, fun t h1 h2 h3 => by
      rw [h t, ← h1, ← h2, ← h3]
      simp⟩
  rcases node with _ | n
  · exact herr Error.ErrNodeIsNil (fun t => rfl)
  · cases hn : n.IsNull
    · cases hv : n.AsInt64 with
      | error err => exact herr err (fun t => by simp [ColDateTime64.Append, hn, hv])
      | ok v =>
        cases pset
        · exact ⟨some (Error.panic "DateTime64: no precision set"), [], fun _ => rfl, by simp,
            fun t h1 h2 h3 => by
              rw [ColDateTime64_Append_unset t n v hn hv h3, ← h1, ← h2, ← h3]
              simp⟩
        · exact ⟨none,
            [proto.ToDateTime64
              (time.Unix (Int.tdiv (wrapInt64 (v * scale)) 1000000000)
                (Int.tmod (wrapInt64 (v * scale)) 1000000000)) p],
            by simp, fun _ => rfl,
            fun t h1 h2 h3 => by
              rw [ColDateTime64_Append_set t n v hn hv h3, h1, h2]
              simp [h2, h3]⟩
    · exact herr Error.ErrNodeIsNil (fun t => by simp [ColDateTime64.Append, hn])

theorem ColEnum8_shape (node : Option StrictNode) :
    ∃ (e : Option Error) (vs : List String),
      (e ≠ none → vs = []) ∧ (e = none → vs.length = 1) ∧
      ∀ t : ColEnum8, t.Append node = ({ col := { vals := t.col.vals ++ vs } }, e) := by
  rcases node with _ | n
  · exact ⟨some Error.ErrNodeIsNil, [], fun _ => rfl, by simp, fun t => by
      simp [ColEnum8.Append]⟩
  · cases hn : n.IsNull
    · cases hv : n.AsString with
      | error err =>
        exact ⟨some err, [], fun _ => rfl, by simp, fun t => by
          simp [ColEnum8.Append, hn, hv]⟩
      | ok v =>
        exact ⟨none, [v], by simp, fun _ => rfl, fun t => by
          simp [ColEnum8.Append, hn, hv, proto.ColEnum.Append]⟩
    · exact ⟨some Error.ErrNodeIsNil, [], fun _ => rfl, by simp, fun t => by
        simp [ColEnum8.Append, hn]⟩

theorem ColEnum16_shape (node : Option StrictNode) :
    ∃ (e : Option Error) (vs : List String),
      (e ≠ none → vs = []) ∧ (e = none → vs.length = 1) ∧
      ∀ t : ColEnum16, t.Append node = ({ col := { vals := t.col.vals ++ vs } }, e) := by
  rcases node with _ | n
  · exact ⟨some Error.ErrNodeIsNil, [], fun _ => rfl, by simp, fun t => by
      simp [ColEnum16.Append]⟩
  · cases hn : n.IsNull
    · cases hv : n.AsString with
      | error err =>
        exact ⟨some err, [], fun _ => rfl, by simp, fun t => by
          simp [ColEnum16.Append, hn, hv]⟩
      | ok v =>
        exact ⟨none, [v], by simp, fun _ => rfl, fun t => by
          simp [ColEnum16.Append, hn, hv, proto.ColEnum.Append]⟩
    · exact ⟨some Error.ErrNodeIsNil, [], fun _ => rfl, by simp, fun t => by
        simp [ColEnum16.Append, hn]⟩

theorem ColIPv4_shape (c : Bool) (node : Option StrictNode) :
    ∃ (e : Option Error) (vs : List proto.IPv4) (ws : List (proto.Nullable proto.IPv4)),
      (e ≠ none → vs = [] ∧ ws = []) ∧
      (e = none → (c = false → vs.length = 1) ∧ (c = true → ws.length = 1)) ∧
      ∀ t : ColIPv4, t.nullable = c →
        t.Append node
          = ({ col := { vals := t.col.vals ++ vs }, nullCol := { vals := t.nullCol.vals ++ ws },
               nullable := c }, e) := by
  have hnil : ∃ (e : Option Error) (vs : List proto.IPv4)
      (ws : List (proto.Nullable proto.IPv4)),
      (e ≠ none → vs = [] ∧ ws = []) ∧
      (e = none → (c = false → vs.length = 1) ∧ (c = true → ws.length = 1)) ∧
      ∀ t : ColIPv4, t.nullable = c →
        (if !t.nullable then (t, some Error.ErrNodeIsNil)
          else ({ t with nullCol := t.nullCol.Append proto.Null }, none))
          = ({ col := { vals := t.col.vals ++ vs }, nullCol := { vals := t.nullCol.vals ++ ws },
               nullable := c }, e) := by
    cases c
    · exact ⟨some Error.ErrNodeIsNil, [], [], fun _ => ⟨rfl, rfl⟩, by simp, fun t ht => by
        cases t
        simp_all⟩
    · exact ⟨none, [], [proto.Null], by simp, by simp, fun t ht => by
        cases t
        simp_all [proto.ColNullable.Append]⟩
  have herr : ∀ err : Error, (∀ t : ColIPv4, t.Append node = (t, some err)) →
      ∃ (e : Option Error) (vs : List proto.IPv4) (ws : List (proto.Nullable proto.IPv4)),
      (e ≠ none → vs = [] ∧ ws = []) ∧
      (e = none → (c = false → vs.length = 1) ∧ (c = true → ws.length = 1)) ∧
      ∀ t : ColIPv4, t.nullable = c →
        t.Append node
          = ({ col := { vals := t.col.vals ++ vs }, nullCol := { vals := t.nullCol.vals ++ ws },
               nullable := c }, e) := by
    intro err h
    exact ⟨some err, [], [], fun _ => ⟨rfl, rfl⟩, by simp, fun t ht => by
      rw [h t]
      cases t
      simp_all⟩
  rcases node with _ | n
  · obtain ⟨e, vs, ws, h1, h2, h3⟩ := hnil
    exact ⟨e, vs, ws, h1, h2, fun t ht => by
      rw [← h3 t ht]
      simp [ColIPv4.Append]⟩
  · cases hn : n.IsNull
    · cases hs : n.AsString with
      | error err => exact herr err (fun t => by simp [ColIPv4.Append, hn, hs])
      | ok s =>
        cases hp : netip.ParseAddr s with
        | error err =>
          exact herr (Error.parse err) (fun t => by simp [ColIPv4.Append, hn, hs, hp])
        | ok a =>
          cases h4 : a.Is4
          · exact herr (Error.errorf ("invalid IPv6 value, val=" ++ s))
              (fun t => by simp [ColIPv4.Append, hn, hs, hp, h4])
          · obtain ⟨v, hv⟩ : ∃ v, proto.ToIPv4 a = some v := ⟨_, ToIPv4_of_Is4 a h4⟩
            clear hnil herr
            cases c
            · exact ⟨none, [v], [], by simp, by simp, fun t ht => by
                cases t
                simp only at ht
                simp [ColIPv4.Append, hn, hs, hp, h4, hv, ht, proto.ColIPv4.Append]⟩
            · exact ⟨none, [], [proto.NewNullable v], by simp, by simp, fun t ht => by
                cases t
                simp only at ht
                simp [ColIPv4.Append, hn, hs, hp, h4, hv, ht, proto.ColNullable.Append]⟩
    · obtain ⟨e, vs, ws, h1, h2, h3⟩ := hnil
      exact ⟨e, vs, ws, h1, h2, fun t ht => by
        rw [← h3 t ht]
        simp [ColIPv4.Append, hn]⟩

theorem ColIPv6_shape (c : Bool) (node : Option StrictNode) :
    ∃ (e : Option Error) (vs : List proto.IPv6) (ws : List (proto.Nullable proto.IPv6)),
      (e ≠ none → vs = [] ∧ ws = []) ∧
      (e = none → (c = false → vs.length = 1) ∧ (c = true → ws.length = 1)) ∧
      ∀ t : ColIPv6, t.nullable = c →
        t.Append node
          = ({ col := { vals := t.col.vals ++ vs }, nullCol := { vals := t.nullCol.vals ++ ws },
               nullable := c }, e) := by
  have hnil : ∃ (e : Option Error) (vs : List proto.IPv6)
      (ws : List (proto.Nullable proto.IPv6)),
      (e ≠ none → vs = [] ∧ ws = []) ∧
      (e = none → (c = false → vs.length = 1) ∧ (c = true → ws.length = 1)) ∧
      ∀ t : ColIPv6, t.nullable = c →
        (if !t.nullable then (t, some Error.ErrNodeIsNil)
          else ({ t with nullCol := t.nullCol.Append proto.Null }, none))
          = ({ col := { vals := t.col.vals ++ vs }, nullCol := { vals := t.nullCol.vals ++ ws },
               nullable := c }, e) := by
    cases c
    · exact ⟨some Error.ErrNodeIsNil, [], [], fun _ => ⟨rfl, rfl⟩, by simp, fun t ht => by
        cases t
        simp_all⟩
    · exact ⟨none, [], [proto.Null], by simp, by simp, fun t ht => by
        cases t
        simp_all [proto.ColNullable.Append]⟩
  have herr : ∀ err : Error, (∀ t : ColIPv6, t.Append node = (t, some err)) →
      ∃ (e : Option Error) (vs : List proto.IPv6) (ws : List (proto.Nullable proto.IPv6)),
      (e ≠ none → vs = [] ∧ ws = []) ∧
      (e = none → (c = false → vs.length = 1) ∧ (c = true → ws.length = 1)) ∧
      ∀ t : ColIPv6, t.nullable = c →
        t.Append node
          = ({ col := { vals := t.col.vals ++ vs }, nullCol := { vals := t.nullCol.vals ++ ws },
               nullable := c }, e) := by
    intro err h
    exact ⟨some err, [], [], fun _ => ⟨rfl, rfl⟩, by simp, fun t ht => by
      rw [h t]
      cases t
      simp_all⟩
  rcases node with _ | n
  · obtain ⟨e, vs, ws, h1, h2, h3⟩ := hnil
    exact ⟨e, vs, ws, h1, h2, fun t ht => by
      rw [← h3 t ht]
      simp [ColIPv6.Append]⟩
  · cases hn : n.IsNull
    · cases hs : n.AsString with
      | error err => exact herr err (fun t => by simp [ColIPv6.Append, hn, hs])
      | ok s =>
        cases hp : netip.ParseAddr s with
        | error err =>
          exact herr (Error.parse err) (fun t => by simp [ColIPv6.Append, hn, hs, hp])
        | ok a =>
          cases h6 : a.Is6
          · exact herr (Error.errorf ("invalid IPv6 value, val=" ++ s))
              (fun t => by simp [ColIPv6.Append, hn, hs, hp, h6])
          · clear hnil herr
            cases c
            · exact ⟨none, [proto.ToIPv6 a], [], by simp, by simp, fun t ht => by
                cases t
                simp only at ht
                simp [ColIPv6.Append, hn, hs, hp, h6, ht, proto.ColIPv6.Append]⟩
            · exact ⟨none, [], [proto.NewNullable (proto.ToIPv6 a)], by simp, by simp, fun t ht => by
                cases t
                simp only at ht
                simp [ColIPv6.Append, hn, hs, hp, h6, ht, proto.ColNullable.Append]⟩
    · obtain ⟨e, vs, ws, h1, h2, h3⟩ := hnil
      exact ⟨e, vs, ws, h1, h2, fun t ht => by
        rw [← h3 t ht]
        simp [ColIPv6.Append, hn]⟩

/-- C12: an adapter stays usable after an error and appends keep the order of
the calls. For each of the six adapters, every state and every finite list of
nodes fed to `Append` in order: the result of each call is the one a new
adapter of the same configuration gives for that node, whatever came before;
the buffer after the run is the initial buffer followed by the converted
values of exactly the accepted nodes, one each, in call order; and the run
without the refused nodes ends in the same state. For the IP adapters this
holds of both buffers, the converted value going to the one the flag
selects. -/
theorem C12_appends_in_order :
    AppendsInOrder ColDateTime.Append ColDateTime.AppendAll (fun t => t.col.vals)
      (fun _ => NewColDateTime { vals := [] }) (fun _ => true) ∧
    AppendsInOrder ColDateTime64.Append ColDateTime64.AppendAll (fun t => t.col.vals)
      (fun t => NewColDateTime64 { t.col with vals := [] } t.scale) (fun _ => true) ∧
    AppendsInOrder ColIPv4.Append ColIPv4.AppendAll (fun t => t.col.vals)
      (fun t => NewColIPv4 t.nullable) (fun t => !t.nullable) ∧
    AppendsInOrder ColIPv4.Append ColIPv4.AppendAll (fun t => t.nullCol.vals)
      (fun t => NewColIPv4 t.nullable) (fun t => t.nullable) ∧
    AppendsInOrder ColIPv6.Append ColIPv6.AppendAll (fun t => t.col.vals)
      (fun t => NewColIPv6 t.nullable) (fun t => !t.nullable) ∧
    AppendsInOrder ColIPv6.Append ColIPv6.AppendAll (fun t => t.nullCol.vals)
      (fun t => NewColIPv6 t.nullable) (fun t => t.nullable) ∧
    AppendsInOrder ColEnum8.Append ColEnum8.AppendAll (fun t => t.col.vals)
      (fun _ => NewColEnum8 { vals := [] }) (fun _ => true) ∧
    AppendsInOrder ColEnum16.Append ColEnum16.AppendAll (fun t => t.col.vals)
      (fun _ => ColEnum16.mk { vals := [] }) (fun _ => true) := by
  refine ⟨?_, ?_, ?_, ?_, ?_, ?_, ?_, ?_⟩
  · refine AppendsInOrder_of_shape _ _ _ _ _ (fun _ => ()) (fun _ => rfl) (fun _ _ _ => rfl)
      (fun _ => ⟨rfl, rfl⟩) ?_
    intro c node
    obtain ⟨e, vs, h1, h2, h3⟩ := ColDateTime_shape node
    refine ⟨e, vs, h1, fun t _ => ?_⟩
    rw [h3 t]
    refine ⟨rfl, rfl, rfl, fun he => ?_, fun he _ => h2 he⟩
    simp [h1 he]
  · refine AppendsInOrder_of_shape _ _ _ _ _
      (fun t => (t.scale, t.col.Precision, t.col.PrecisionSet)) (fun _ => rfl)
      (fun _ _ _ => rfl) (fun _ => ⟨rfl, rfl⟩) ?_
    rintro ⟨scale, p, pset⟩ node
    obtain ⟨e, vs, h1, h2, h3⟩ := ColDateTime64_shape scale p pset node
    refine ⟨e, vs, h1, fun t ht => ?_⟩
    simp only [Prod.mk.injEq] at ht
    obtain ⟨ht1, ht2, ht3⟩ := ht
    rw [h3 t ht1 ht2 ht3]
    refine ⟨rfl, rfl, rfl, fun he => ?_, fun he _ => h2 he⟩
    rw [h1 he, ← ht1, ← ht2, ← ht3]
    simp
  · refine AppendsInOrder_of_shape _ _ _ _ _ (fun t => t.nullable) (fun _ => rfl)
      (fun _ _ _ => rfl) (fun _ => ⟨rfl, rfl⟩) ?_
    intro c node
    obtain ⟨e, vs, ws, h1, h2, h3⟩ := ColIPv4_shape c node
    refine ⟨e, vs, fun he => (h1 he).1, fun t ht => ?_⟩
    rw [h3 t ht]
    refine ⟨rfl, rfl, rfl, fun he => ?_, fun he hl => (h2 he).1 ?_⟩
    · cases t
      simp_all
    · rw [← ht]
      simpa using hl
  · refine AppendsInOrder_of_shape _ _ _ _ _ (fun t => t.nullable) (fun _ => rfl)
      (fun _ _ _ => rfl) (fun _ => ⟨rfl, rfl⟩) ?_
    intro c node
    obtain ⟨e, vs, ws, h1, h2, h3⟩ := ColIPv4_shape c node
    refine ⟨e, ws, fun he => (h1 he).2, fun t ht => ?_⟩
    rw [h3 t ht]
    refine ⟨rfl, rfl, rfl, fun he => ?_, fun he hl => (h2 he).2 ?_⟩
    · cases t
      simp_all
    · rw [← ht]
      exact hl
  · refine AppendsInOrder_of_shape _ _ _ _ _ (fun t => t.nullable) (fun _ => rfl)
      (fun _ _ _ => rfl) (fun _ => ⟨rfl, rfl⟩) ?_
    intro c node
    obtain ⟨e, vs, ws, h1, h2, h3⟩ := ColIPv6_shape c node
    refine ⟨e, vs, fun he => (h1 he).1, fun t ht => ?_⟩
    rw [h3 t ht]
    refine ⟨rfl, rfl, rfl, fun he => ?_, fun he hl => (h2 he).1 ?_⟩
    · cases t
      simp_all
    · rw [← ht]
      simpa using hl
  · refine AppendsInOrder_of_shape _ _ _ _ _ (fun t => t.nullable) (fun _ => rfl)
      (fun _ _ _ => rfl) (fun _ => ⟨rfl, rfl⟩) ?_
    intro c node
    obtain ⟨e, vs, ws, h1, h2, h3⟩ := ColIPv6_shape c node
    refine ⟨e, ws, fun he => (h1 he).2, fun t ht => ?_⟩
    rw [h3 t ht]
    refine ⟨rfl, rfl, rfl, fun he => ?_, fun he hl => (h2 he).2 ?_⟩
    · cases t
      simp_all
    · rw [← ht]
      exact hl
  · refine AppendsInOrder_of_shape _ _ _ _ _ (fun _ => ()) (fun _ => rfl) (fun _ _ _ => rfl)
      (fun _ => ⟨rfl, rfl⟩) ?_
    intro c node
    obtain ⟨e, vs, h1, h2, h3⟩ := ColEnum8_shape node
    refine ⟨e, vs, h1, fun t _ => ?_⟩
    rw [h3 t]
    refine ⟨rfl, rfl, rfl, fun he => ?_, fun he _ => h2 he⟩
    simp [h1 he]
  · refine AppendsInOrder_of_shape _ _ _ _ _ (fun _ => ()) (fun _ => rfl) (fun _ _ _ => rfl)
      (fun _ => ⟨rfl, rfl⟩) ?_
    intro c node
    obtain ⟨e, vs, h1, h2, h3⟩ := ColEnum16_shape node
    refine ⟨e, vs, h1, fun t _ => ?_⟩
    rw [h3 t]
    refine ⟨rfl, rfl, rfl, fun he => ?_, fun he _ => h2 he⟩
    simp [h1 he]

/-- Witness of C12: a `ColIPv4` with `nullable = false` is fed two good
addresses with a bad string, a nil node and a number in between; both
addresses are in the buffer, in call order, the run without the three refused
nodes ends in the same state, and the call after the refusals succeeds as on
a new adapter. -/
theorem C12_appends_in_order_witness :
    ((NewColIPv4 false).AppendAll
        [some (stringNode "1.2.3.4"), some (stringNode "bad"), none, some (numberNode 5),
         some (stringNode "5.6.7.8")]).col.vals = [16909060, 84281096] ∧
    (NewColIPv4 false).AppendAll [some (stringNode "1.2.3.4"), some (stringNode "5.6.7.8")]
      = (NewColIPv4 false).AppendAll
          [some (stringNode "1.2.3.4"), some (stringNode "bad"), none, some (numberNode 5),
           some (stringNode "5.6.7.8")] ∧
    (((NewColIPv4 false).AppendAll
        [some (stringNode "1.2.3.4"), some (stringNode "bad"), none, some (numberNode 5)]).Append
          (some (stringNode "5.6.7.8"))).2 = none :=
  ⟨((C12_appends_in_order.2.2.1 (NewColIPv4 false)
        [some (stringNode "1.2.3.4"), some (stringNode "bad"), none, some (numberNode 5),
         some (stringNode "5.6.7.8")]).2.2.2.1).trans (by decide),
   (C12_appends_in_order.2.2.1 (NewColIPv4 false)
        [some (stringNode "1.2.3.4"), some (stringNode "bad"), none, some (numberNode 5),
         some (stringNode "5.6.7.8")]).2.2.2.2,
   ((C12_appends_in_order.2.2.1 (NewColIPv4 false) []).1
        [some (stringNode "1.2.3.4"), some (stringNode "bad"), none, some (numberNode 5)]
        (some (stringNode "5.6.7.8"))).trans (by decide)⟩

end clickhouse
